import Mathlib

/-! Higher-or-lower card game: the rules engine of `script.js`.

A shallow embedding of `src/script.js`.  The global variables of the script
(`deck`, `currentCard`, `roundsCompleted`, `playerScore`, `dealerScore`,
`history`) become the fields of `State`; the parts of the page the script
writes to become the fields of `Dom`; every function of the script becomes a
function `State → State` (or a pure function for `getCardInfo` and
`compareCards`).  `Math.random` is replaced by an explicit supply of swap
indices, one for each iteration of the shuffle loop.
-/

namespace HigherLower

/-! ## Card model -/

/-- The array `suits` of the script. -/
def suits : List String := ["Clubs", "Diamonds", "Hearts", "Spades"]

/-- The array `ranks` of the script. -/
def ranks : List String :=
  ["Ace", "2", "3", "4", "5", "6", "7", "8", "9", "10", "Jack", "Queen", "King"]

/-- Array lookup `xs[i]` at an integer index: `none` stands for `undefined`, which is
what an index below zero or past the end reads. -/
def jsIndex {α : Type} (xs : List α) (i : Int) : Option α :=
  if 0 ≤ i then xs[i.toNat]? else none

/-- String conversion of a looked-up array element, as done by `+` on strings. -/
def jsString (x : Option String) : String :=
  match x with
  | some s => s
  | none => "undefined"

/-- The object returned by `getCardInfo`. -/
structure CardInfo where
  suit : Option String
  rank : Option String
  color : String
  value : Int
  name : String
  image : String
deriving DecidableEq, Repr

/-- The function `getCardInfo(cardNum)`.  `Math.floor(index / 13)` is floor division and
`index % 13` is the remainder with the sign of the dividend. -/
def getCardInfo (cardNum : Nat) : CardInfo :=
  let index : Int := (cardNum : Int) - 1
  let suitIndex : Int := Int.fdiv index 13
  let rankIndex : Int := Int.tmod index 13
  let suit := jsIndex suits suitIndex
  let rank := jsIndex ranks rankIndex
  let color := if suit = some "Clubs" ∨ suit = some "Spades" then "black" else "red"
  let value : Int :=
    if rank = some "Ace" then (if color = "black" then 14 else 1) else rankIndex + 1
  let image := "images/" ++ toString cardNum ++ ".png"
  { suit := suit, rank := rank, color := color, value := value,
    name := jsString rank ++ " of " ++ jsString suit, image := image }

/-- The function `compareCards(baseCard, newCard)`. -/
def compareCards (baseCard newCard : Nat) : Int :=
  let baseInfo := getCardInfo baseCard
  let newInfo := getCardInfo newCard
  if baseInfo.value = newInfo.value then
    if baseInfo.color = newInfo.color then 0
    else (if newInfo.color = "black" then 1 else -1)
  else
    (if newInfo.value > baseInfo.value then 1 else -1)

/-! ## Session state -/

/-- One entry of the array `history`. -/
structure RoundRecord where
  baseCard : Option Nat
  newCard : Nat
  outcome : String
  winningSide : Option String
  guess : String
deriving DecidableEq, Repr

/-- The parts of the page the script writes to.  `historyList` holds, for each `li`
appended by `updateHistory`, the two arguments the item was rendered from. -/
structure Dom where
  message : String
  guessSectionDisplay : String
  startBtnDisplay : String
  cardImgSrc : String
  cardImgAlt : String
  playerScoreText : Nat
  dealerScoreText : Nat
  roundCountText : Nat
  historyList : List (RoundRecord × Nat)
deriving DecidableEq, Repr

/-- The global variables of the script together with the page.  `currentCard = none`
is the initial `null`. -/
structure State where
  deck : List Nat
  currentCard : Option Nat
  roundsCompleted : Nat
  playerScore : Nat
  dealerScore : Nat
  history : List RoundRecord
  dom : Dom
deriving DecidableEq, Repr

/-- The page before any script has run on it: nothing written yet. -/
def Dom.blank : Dom :=
  { message := "", guessSectionDisplay := "", startBtnDisplay := "",
    cardImgSrc := "", cardImgAlt := "",
    playerScoreText := 0, dealerScoreText := 0, roundCountText := 0, historyList := [] }

/-- The state right after the script is loaded (lines 2 to 7). -/
def State.initial : State :=
  { deck := [], currentCard := none, roundsCompleted := 0, playerScore := 0,
    dealerScore := 0, history := [], dom := Dom.blank }

/-- The number a card variable stands for in `cardNum - 1`: `null` counts as `0`.  (The
image name of `null` is never built: `displayCurrentCard` runs only after a card was
assigned to `currentCard`.) -/
def cardNumber (card : Option Nat) : Nat := card.getD 0

/-! ## Deck -/

/-- The first loop of `initializeDeck`: `for (let i = 1; i <= 52; i++) deck.push(i)`. -/
def fillDeck : List Nat :=
  (List.range' 1 52).foldl (fun deck i => deck ++ [i]) []

/-- The destructuring swap `[deck[i], deck[j]] = [deck[j], deck[i]]`: both elements are
read, then `deck[i]` and `deck[j]` are written in this order.  The indices the loop
passes are inside the array; for other indices the list is left as it is. -/
def swap (deck : List Nat) (i j : Nat) : List Nat :=
  match deck[j]?, deck[i]? with
  | some dj, some di => (deck.set i dj).set j di
  | _, _ => deck

/-- The Fisher-Yates loop `for (let i = deck.length - 1; i > 0; i--)`, started at `i`.
`rand i` is the value of `Math.floor(Math.random() * (i + 1))` in the iteration for `i`. -/
def shuffleLoop (rand : Nat → Nat) : Nat → List Nat → List Nat
  | 0, deck => deck
  | i + 1, deck => shuffleLoop rand i (swap deck (i + 1) (rand (i + 1)))

/-- The function `initializeDeck()`. -/
def initializeDeck (rand : Nat → Nat) (s : State) : State :=
  let deck := fillDeck
  { s with deck := shuffleLoop rand (deck.length - 1) deck }

/-- What `Math.random()` in `[0, 1)` guarantees for the swap index of every iteration
of the shuffle loop: `0 ≤ j ≤ i`. -/
def ValidRand (rand : Nat → Nat) : Prop :=
  ∀ i, 1 ≤ i → i ≤ 51 → rand i ≤ i

/-! ## Page updates -/

/-- The function `updateScoreboard()`. -/
def updateScoreboard (s : State) : State :=
  { s with dom := { s.dom with playerScoreText := s.playerScore,
                               dealerScoreText := s.dealerScore,
                               roundCountText := s.roundsCompleted } }

/-- The function `displayCurrentCard()`. -/
def displayCurrentCard (s : State) : State :=
  let info := getCardInfo (cardNumber s.currentCard)
  { s with dom := { s.dom with cardImgSrc := info.image, cardImgAlt := info.name } }

/-- The function `updateHistory(roundResult, roundNumber)`: one item is appended to the
history list of the page. -/
def updateHistory (roundResult : RoundRecord) (roundNumber : Nat) (s : State) : State :=
  { s with dom := { s.dom with historyList := s.dom.historyList ++ [(roundResult, roundNumber)] } }

/-- Assignment to the `textContent` of the message element. -/
def setMessage (msg : String) (s : State) : State :=
  { s with dom := { s.dom with message := msg } }

/-! ## Game session -/

/-- The function `endGame()`. -/
def endGame (s : State) : State :=
  let s1 := { s with dom := { s.dom with guessSectionDisplay := "none" } }
  let finalMessage :=
    if s1.playerScore > s1.dealerScore then "Game Over. You win!"
    else if s1.dealerScore > s1.playerScore then "Game Over. Dealer wins!"
    else "Game Over. It’s a tie!"
  let s2 := setMessage finalMessage s1
  { s2 with dom := { s2.dom with startBtnDisplay := "block" } }

/-- The function `handleGuess(guess)`.  The first branch is `deck.length === 0`; in the
second `nextCard` is the result of `deck.pop()`. -/
def handleGuess (guess : String) (s : State) : State :=
  match s.deck.getLast? with
  | none => setMessage "No more cards in deck!" s
  | some nextCard =>
    let s1 := { s with deck := s.deck.dropLast }
    let comp := compareCards (cardNumber s1.currentCard) nextCard
    if comp = 0 then
      let s2 := setMessage
        "It was a draw (same rank and colour). This round will not be counted." s1
      let record : RoundRecord :=
        { baseCard := s2.currentCard, newCard := nextCard, outcome := "draw",
          winningSide := none, guess := guess }
      let s3 := { s2 with history := s2.history ++ [record] }
      let s4 := updateHistory record (s3.roundsCompleted + 1) s3
      let s5 := { s4 with currentCard := some nextCard }
      displayCurrentCard s5
    else
      let playerWon : Bool :=
        decide ((guess = "higher" ∧ comp = 1) ∨ (guess = "lower" ∧ comp = -1))
      let s2 :=
        if playerWon then
          setMessage "You guessed correctly!" { s1 with playerScore := s1.playerScore + 1 }
        else
          setMessage "Sorry, wrong guess." { s1 with dealerScore := s1.dealerScore + 1 }
      let s3 := updateScoreboard { s2 with roundsCompleted := s2.roundsCompleted + 1 }
      let record : RoundRecord :=
        { baseCard := s3.currentCard, newCard := nextCard,
          outcome := if playerWon then "win" else "loss",
          winningSide := some (if playerWon then "player" else "dealer"),
          guess := guess }
      let s4 := { s3 with history := s3.history ++ [record] }
      let s5 := updateHistory record s4.roundsCompleted s4
      let s6 := displayCurrentCard { s5 with currentCard := some nextCard }
      if s6.roundsCompleted ≥ 5 then endGame s6 else s6

/-- The function `startGame()`. -/
def startGame (rand : Nat → Nat) (s : State) : State :=
  let s1 := initializeDeck rand s
  let s2 := { s1 with currentCard := s1.deck.getLast?, deck := s1.deck.dropLast }
  let s3 := { s2 with roundsCompleted := 0, playerScore := 0, dealerScore := 0, history := [] }
  let s4 := { s3 with dom := { s3.dom with historyList := [] } }
  let s5 := displayCurrentCard (updateScoreboard s4)
  let s6 := setMessage "" s5
  { s6 with dom := { s6.dom with guessSectionDisplay := "block", startBtnDisplay := "none" } }

/-- The function `quitGame()`. -/
def quitGame (s : State) : State :=
  let s1 := setMessage "You quit the game." s
  { s1 with dom := { s1.dom with guessSectionDisplay := "none", startBtnDisplay := "block",
                                 cardImgSrc := "images/back.png", cardImgAlt := "Card Back" } }

/-- A sequence of `handleGuess` calls, first guess first. -/
def playGuesses (guesses : List String) (s : State) : State :=
  guesses.foldl (fun st g => handleGuess g st) s

/-! ## Observations on the page -/

/-- The three texts `endGame` writes to the message element. -/
def gameOverMessages : List String :=
  ["Game Over. You win!", "Game Over. Dealer wins!", "Game Over. It’s a tie!"]

/-- The page shows the end of the game: the guess controls are hidden, the start button
is shown and the message is one of the three verdicts.  Only `endGame` writes a verdict. -/
def Ended (s : State) : Prop :=
  s.dom.message ∈ gameOverMessages ∧ s.dom.guessSectionDisplay = "none" ∧
    s.dom.startBtnDisplay = "block"

instance (s : State) : Decidable (Ended s) := by unfold Ended; infer_instance

/-- The page accepts guesses: the guess controls are shown and the start button is hidden,
as `startGame` leaves them. -/
def Playing (s : State) : Prop :=
  s.dom.guessSectionDisplay = "block" ∧ s.dom.startBtnDisplay = "none"

instance (s : State) : Decidable (Playing s) := by unfold Playing; infer_instance

/-! ## Auxiliary definitions for the statements -/

/-- The state a counted round leaves before the check of the round limit. -/
def countedState (guess : String) (s : State) (init : List Nat) (c : Nat) : State :=
  let won : Bool :=
    decide ((guess = "higher" ∧ compareCards (cardNumber s.currentCard) c = 1) ∨
      (guess = "lower" ∧ compareCards (cardNumber s.currentCard) c = -1))
  let record : RoundRecord :=
    { baseCard := s.currentCard, newCard := c,
      outcome := if won then "win" else "loss",
      winningSide := some (if won then "player" else "dealer"), guess := guess }
  displayCurrentCard
    { deck := init
      currentCard := some c
      roundsCompleted := s.roundsCompleted + 1
      playerScore := if won then s.playerScore + 1 else s.playerScore
      dealerScore := if won then s.dealerScore else s.dealerScore + 1
      history := s.history ++ [record]
      dom := { s.dom with
        message := if won then "You guessed correctly!" else "Sorry, wrong guess."
        playerScoreText := if won then s.playerScore + 1 else s.playerScore
        dealerScoreText := if won then s.dealerScore else s.dealerScore + 1
        roundCountText := s.roundsCompleted + 1
        historyList := s.dom.historyList ++ [(record, s.roundsCompleted + 1)] } }

/-- A supply of swap indices for which the shuffle leaves the King of Spades (id 52) as the
last card and the King of Clubs (id 13) as the card before it: the iteration `i = 50`
swaps with index 12, every other iteration swaps an element with itself. -/
def drawRand (i : Nat) : Nat := if i = 50 then 12 else i

/-- The player wins the round that `handleGuess guess` resolves in state `s`: the call raises
`playerScore` by one. -/
def playerWins (guess : String) (s : State) : Prop :=
  (handleGuess guess s).playerScore = s.playerScore + 1

/-- The six session variables of `t` are those of `s`. -/
def sameSession (s t : State) : Prop :=
  t.deck = s.deck ∧ t.currentCard = s.currentCard ∧ t.roundsCompleted = s.roundsCompleted ∧
    t.playerScore = s.playerScore ∧ t.dealerScore = s.dealerScore ∧ t.history = s.history

/-- The cards of a session: those still in the deck, the current card, and the base cards
of the history records. -/
def seenCards (s : State) : List Nat :=
  s.deck ++ s.currentCard.toList ++ s.history.filterMap (fun r => r.baseCard)

/-- The invariant of a game in progress: what holds of the session variables after
`startGame` and after every `handleGuess` that follows. -/
def RunInv (s : State) : Prop :=
  (∃ cur, s.currentCard = some cur) ∧
  (seenCards s).Perm (List.range' 1 52) ∧
  List.Chain' (fun r r2 : RoundRecord => r2.baseCard = some r.newCard) s.history ∧
  (∀ r, s.history.getLast? = some r → s.currentCard = some r.newCard) ∧
  s.playerScore = s.history.countP (fun r => r.winningSide = some "player") ∧
  s.dealerScore = s.history.countP (fun r => r.winningSide = some "dealer") ∧
  s.roundsCompleted = s.history.countP (fun r => r.outcome ≠ "draw") ∧
  (∀ r, s.history.getLast? = some r → r.outcome = "draw" →
    ∃ b, r.baseCard = some b ∧ compareCards b r.newCard = 0) ∧
  List.Chain' (fun r r2 : RoundRecord => ¬ (r.outcome = "draw" ∧ r2.outcome = "draw"))
    s.history ∧
  s.history.length ≤ 2 * s.roundsCompleted + 1 ∧
  (∀ r, s.history.getLast? = some r → r.outcome ≠ "draw" →
    s.history.length ≤ 2 * s.roundsCompleted) ∧
  s.deck.length + s.history.length = 51 ∧
  s.playerScore + s.dealerScore = s.roundsCompleted

/-! ## Card model: lemmas -/

theorem mem_range_ids {id : Nat} : id ∈ List.range' 1 52 ↔ 1 ≤ id ∧ id ≤ 52 := by
  rw [List.mem_range'_1]; omega

theorem getCardInfo_color_cases (n : Nat) :
    (getCardInfo n).color = "black" ∨ (getCardInfo n).color = "red" := by
  simp only [getCardInfo]
  split_ifs <;> simp

theorem compareCards_unfold (base new : Nat) :
    compareCards base new =
      if (getCardInfo base).value = (getCardInfo new).value then
        if (getCardInfo base).color = (getCardInfo new).color then 0
        else (if (getCardInfo new).color = "black" then 1 else -1)
      else (if (getCardInfo new).value > (getCardInfo base).value then 1 else -1) := rfl

theorem compareCards_range (base new : Nat) :
    compareCards base new = -1 ∨ compareCards base new = 0 ∨ compareCards base new = 1 := by
  rw [compareCards_unfold]
  split_ifs <;> simp

/-- Every id of 1..52 looks its suit and rank up inside the two arrays, and its colour is
the colour of its suit. -/
theorem card_lookup_all :
    ∀ id ∈ List.range' 1 52,
      (id - 1) / 13 ≤ 3 ∧ (id - 1) % 13 ≤ 12 ∧
      (getCardInfo id).suit = suits[(id - 1) / 13]? ∧
      (getCardInfo id).rank = ranks[(id - 1) % 13]? ∧
      (∃ s ∈ suits, (getCardInfo id).suit = some s) ∧
      (∃ r ∈ ranks, (getCardInfo id).rank = some r) ∧
      ((getCardInfo id).color = "black" ↔
        ((getCardInfo id).suit = some "Clubs" ∨ (getCardInfo id).suit = some "Spades")) ∧
      ((getCardInfo id).color = "red" ↔
        ((getCardInfo id).suit = some "Diamonds" ∨ (getCardInfo id).suit = some "Hearts")) := by
  decide

set_option maxRecDepth 100000 in
theorem card_pair_injective_all :
    ∀ a ∈ List.range' 1 52, ∀ b ∈ List.range' 1 52,
      (getCardInfo a).suit = (getCardInfo b).suit →
      (getCardInfo a).rank = (getCardInfo b).rank → a = b := by
  decide

set_option maxRecDepth 100000 in
theorem card_pair_surjective_all :
    ∀ s ∈ suits, ∀ r ∈ ranks, ∃ id ∈ List.range' 1 52,
      (getCardInfo id).suit = some s ∧ (getCardInfo id).rank = some r := by
  decide

set_option maxRecDepth 100000 in
theorem compareCards_zero_all :
    ∀ a ∈ List.range' 1 52, ∀ b ∈ List.range' 1 52, a ≠ b →
      ((compareCards a b = 0 ↔
          ((getCardInfo a).rank = (getCardInfo b).rank ∧
            (getCardInfo a).color = (getCardInfo b).color)) ∧
        (compareCards a b = 0 ↔
          (b = a + 39 ∨ a = b + 39 ∨ (14 ≤ a ∧ a ≤ 26 ∧ b = a + 13) ∨
            (14 ≤ b ∧ b ≤ 26 ∧ a = b + 13)))) := by
  decide

/-! ## Claims on the card model -/

/-- C1: for card ids `base`, `new` in 1..52, `compareCards base new` is `+1` when the new
card has the greater value and `-1` when it has the smaller one; on equal values it is `0`
when the two colours are equal, and otherwise `+1` for a black new card and `-1` for a red
new card (base black King, new red King gives `-1`); the result is always one of `-1`, `0`,
`+1`. -/
theorem compareCards_contract (base new : Nat)
    (hb1 : 1 ≤ base) (hb2 : base ≤ 52) (hn1 : 1 ≤ new) (hn2 : new ≤ 52) :
    ((getCardInfo new).value > (getCardInfo base).value → compareCards base new = 1) ∧
    ((getCardInfo new).value < (getCardInfo base).value → compareCards base new = -1) ∧
    ((getCardInfo new).value = (getCardInfo base).value →
      ((getCardInfo new).color = (getCardInfo base).color → compareCards base new = 0) ∧
      ((getCardInfo new).color ≠ (getCardInfo base).color →
        ((getCardInfo new).color = "black" → compareCards base new = 1) ∧
        ((getCardInfo new).color = "red" → compareCards base new = -1))) ∧
    (compareCards base new = -1 ∨ compareCards base new = 0 ∨ compareCards base new = 1) ∧
    ((getCardInfo 13).rank = some "King" ∧ (getCardInfo 13).color = "black" ∧
      (getCardInfo 26).rank = some "King" ∧ (getCardInfo 26).color = "red" ∧
      compareCards 13 26 = -1) := by
  refine ⟨?_, ?_, ?_, compareCards_range base new, by decide⟩
  · intro h
    rw [compareCards_unfold, if_neg (by omega), if_pos h]
  · intro h
    rw [compareCards_unfold, if_neg (by omega), if_neg (by omega)]
  · intro h
    rw [compareCards_unfold, if_pos h.symm]
    refine ⟨fun hc => by rw [if_pos hc.symm], fun hc => ?_⟩
    rw [if_neg (fun e => hc e.symm)]
    refine ⟨fun hbk => by rw [if_pos hbk], fun hr => ?_⟩
    rw [if_neg (by rw [hr]; decide)]

/-- Instances of C1: 9 of Clubs after 5 of Clubs is higher, 5 after 9 is lower, red King
after black King is lower, black King after red King is higher. -/
theorem compareCards_contract_witness :
    compareCards 5 9 = 1 ∧ compareCards 9 5 = -1 ∧ compareCards 13 26 = -1 ∧
      compareCards 26 13 = 1 :=
  ⟨(compareCards_contract 5 9 (by decide) (by decide) (by decide) (by decide)).1 (by decide),
   (compareCards_contract 9 5 (by decide) (by decide) (by decide) (by decide)).2.1 (by decide),
   ((compareCards_contract 13 26 (by decide) (by decide) (by decide) (by decide)).2.2.1
      (by decide)).2 (by decide) |>.2 (by decide),
   ((compareCards_contract 26 13 (by decide) (by decide) (by decide) (by decide)).2.2.1
      (by decide)).2 (by decide) |>.1 (by decide)⟩

/-- C2: for every card id in 1..52 the value of `getCardInfo id` is 14 for a black Ace, 1 for
a red Ace, and otherwise the rank index plus one, which is the face value (2 for "2" up to
10 for "10", 11 for Jack, 12 for Queen, 13 for King); the value lies in `[1, 14]`. -/
theorem getCardInfo_value (id : Nat) (h1 : 1 ≤ id) (h2 : id ≤ 52) :
    (getCardInfo id).rank = ranks[(id - 1) % 13]? ∧
    ((getCardInfo id).rank = some "Ace" → (getCardInfo id).color = "black" →
      (getCardInfo id).value = 14) ∧
    ((getCardInfo id).rank = some "Ace" → (getCardInfo id).color = "red" →
      (getCardInfo id).value = 1) ∧
    ((getCardInfo id).rank ≠ some "Ace" →
      (getCardInfo id).value = (((id - 1) % 13 + 1 : Nat) : Int)) ∧
    ((getCardInfo id).rank = some "2" → (getCardInfo id).value = 2) ∧
    ((getCardInfo id).rank = some "3" → (getCardInfo id).value = 3) ∧
    ((getCardInfo id).rank = some "4" → (getCardInfo id).value = 4) ∧
    ((getCardInfo id).rank = some "5" → (getCardInfo id).value = 5) ∧
    ((getCardInfo id).rank = some "6" → (getCardInfo id).value = 6) ∧
    ((getCardInfo id).rank = some "7" → (getCardInfo id).value = 7) ∧
    ((getCardInfo id).rank = some "8" → (getCardInfo id).value = 8) ∧
    ((getCardInfo id).rank = some "9" → (getCardInfo id).value = 9) ∧
    ((getCardInfo id).rank = some "10" → (getCardInfo id).value = 10) ∧
    ((getCardInfo id).rank = some "Jack" → (getCardInfo id).value = 11) ∧
    ((getCardInfo id).rank = some "Queen" → (getCardInfo id).value = 12) ∧
    ((getCardInfo id).rank = some "King" → (getCardInfo id).value = 13) ∧
    1 ≤ (getCardInfo id).value ∧ (getCardInfo id).value ≤ 14 := by
  interval_cases id <;> decide

/-- Instances of C2: the Ace of Spades (id 40) is worth 14, the Ace of Hearts (id 27) is
worth 1 and the Queen of Diamonds (id 25) is worth 12. -/
theorem getCardInfo_value_witness :
    (getCardInfo 40).value = 14 ∧ (getCardInfo 27).value = 1 ∧ (getCardInfo 25).value = 12 :=
  ⟨(getCardInfo_value 40 (by decide) (by decide)).2.1 (by decide) (by decide),
   (getCardInfo_value 27 (by decide) (by decide)).2.2.1 (by decide) (by decide),
   (getCardInfo_value 25 (by decide) (by decide)).2.2.2.2.2.2.2.2.2.2.2.2.2.2.1 (by decide)⟩

/-- C3: on the ids 1..52 `getCardInfo` is a bijection onto the 4 x 13 (suit, rank) pairs:
the suit index `(id - 1) / 13` is in 0..3 and the rank index `(id - 1) % 13` in 0..12, so
both lookups are in bounds; two ids with the same suit and rank are equal; every pair of a
suit and a rank is the pair of some id; the colour is black exactly for Clubs and Spades and
red exactly for Diamonds and Hearts. -/
theorem getCardInfo_bijection :
    (∀ id, 1 ≤ id → id ≤ 52 →
      (id - 1) / 13 ≤ 3 ∧ (id - 1) % 13 ≤ 12 ∧
      (getCardInfo id).suit = suits[(id - 1) / 13]? ∧
      (getCardInfo id).rank = ranks[(id - 1) % 13]? ∧
      (∃ s ∈ suits, (getCardInfo id).suit = some s) ∧
      (∃ r ∈ ranks, (getCardInfo id).rank = some r) ∧
      ((getCardInfo id).color = "black" ↔
        ((getCardInfo id).suit = some "Clubs" ∨ (getCardInfo id).suit = some "Spades")) ∧
      ((getCardInfo id).color = "red" ↔
        ((getCardInfo id).suit = some "Diamonds" ∨ (getCardInfo id).suit = some "Hearts"))) ∧
    (∀ a b, 1 ≤ a → a ≤ 52 → 1 ≤ b → b ≤ 52 →
      (getCardInfo a).suit = (getCardInfo b).suit →
      (getCardInfo a).rank = (getCardInfo b).rank → a = b) ∧
    (∀ s ∈ suits, ∀ r ∈ ranks, ∃ id, 1 ≤ id ∧ id ≤ 52 ∧
      (getCardInfo id).suit = some s ∧ (getCardInfo id).rank = some r) ∧
    suits.length = 4 ∧ ranks.length = 13 ∧ suits.Nodup ∧ ranks.Nodup := by
  refine ⟨fun id h1 h2 => card_lookup_all id (mem_range_ids.mpr ⟨h1, h2⟩),
    fun a b ha1 ha2 hb1 hb2 =>
      card_pair_injective_all a (mem_range_ids.mpr ⟨ha1, ha2⟩) b (mem_range_ids.mpr ⟨hb1, hb2⟩),
    fun s hs r hr => ?_, by decide, by decide, by decide, by decide⟩
  obtain ⟨id, hid, h⟩ := card_pair_surjective_all s hs r hr
  exact ⟨id, (mem_range_ids.mp hid).1, (mem_range_ids.mp hid).2, h⟩

/-! ## Session: lemmas -/

theorem handleGuess_empty (guess : String) (s : State) (h : s.deck = []) :
    handleGuess guess s = setMessage "No more cards in deck!" s := by
  simp [handleGuess, h]

theorem handleGuess_draw_eq (guess : String) (s : State) (init : List Nat) (c : Nat)
    (hdeck : s.deck = init ++ [c]) (hcomp : compareCards (cardNumber s.currentCard) c = 0) :
    handleGuess guess s =
      displayCurrentCard
        { s with
          deck := init
          currentCard := some c
          history := s.history ++
            [{ baseCard := s.currentCard, newCard := c, outcome := "draw",
               winningSide := none, guess := guess }]
          dom := { s.dom with
            message := "It was a draw (same rank and colour). This round will not be counted."
            historyList := s.dom.historyList ++
              [({ baseCard := s.currentCard, newCard := c, outcome := "draw",
                  winningSide := none, guess := guess }, s.roundsCompleted + 1)] } } := by
  simp [handleGuess, hdeck, hcomp, setMessage, updateHistory]

theorem handleGuess_counted_eq (guess : String) (s : State) (init : List Nat) (c : Nat)
    (hdeck : s.deck = init ++ [c]) (hcomp : compareCards (cardNumber s.currentCard) c ≠ 0) :
    handleGuess guess s =
      if 5 ≤ s.roundsCompleted + 1 then endGame (countedState guess s init c)
      else countedState guess s init c := by
  by_cases hw : (guess = "higher" ∧ compareCards (cardNumber s.currentCard) c = 1) ∨
      (guess = "lower" ∧ compareCards (cardNumber s.currentCard) c = -1)
  · simp [handleGuess, hdeck, hcomp, countedState, hw, setMessage, updateHistory, updateScoreboard,
      displayCurrentCard]
  · simp [handleGuess, hdeck, hcomp, countedState, hw, setMessage, updateHistory, updateScoreboard,
      displayCurrentCard]

theorem endGame_frame (s : State) :
    (endGame s).deck = s.deck ∧ (endGame s).currentCard = s.currentCard ∧
    (endGame s).roundsCompleted = s.roundsCompleted ∧
    (endGame s).playerScore = s.playerScore ∧ (endGame s).dealerScore = s.dealerScore ∧
    (endGame s).history = s.history := by
  simp [endGame, setMessage]

theorem endGame_message_mem (s : State) : (endGame s).dom.message ∈ gameOverMessages := by
  simp only [endGame, setMessage, gameOverMessages]
  split_ifs <;> simp

theorem endGame_Ended (s : State) : Ended (endGame s) :=
  ⟨endGame_message_mem s, by simp [endGame, setMessage], by simp [endGame, setMessage]⟩

theorem countedState_message (guess : String) (s : State) (init : List Nat) (c : Nat) :
    (countedState guess s init c).dom.message ∉ gameOverMessages := by
  simp only [countedState, displayCurrentCard, gameOverMessages]
  split_ifs <;> decide

theorem countedState_display (guess : String) (s : State) (init : List Nat) (c : Nat) :
    (countedState guess s init c).dom.guessSectionDisplay = s.dom.guessSectionDisplay ∧
    (countedState guess s init c).dom.startBtnDisplay = s.dom.startBtnDisplay := by
  simp [countedState, displayCurrentCard]

theorem deck_cases (l : List Nat) : l = [] ∨ ∃ init c, l = init ++ [c] := by
  rcases List.eq_nil_or_concat l with h | ⟨init, c, h⟩
  · exact Or.inl h
  · exact Or.inr ⟨init, c, by simpa using h⟩

/-! ## Claims on the session -/

/-- C4: in a state whose deck is not empty and whose last card `c` does not compare as a draw
with the current card, `handleGuess guess` counts the round: the player wins iff the guess is
"higher" and the comparison is `+1`, or "lower" and `-1`; the winner's score goes up by one and
the other score is unchanged; `roundsCompleted` goes up by one; exactly one record (old current
card, `c`, the guess, win or loss, player or dealer) is appended to the end of the history; `c`
leaves the deck and becomes the current card. -/
theorem handleGuess_counted_round (guess : String) (s : State) (init : List Nat) (c : Nat)
    (hdeck : s.deck = init ++ [c])
    (hcomp : compareCards (cardNumber s.currentCard) c ≠ 0) :
    (((guess = "higher" ∧ compareCards (cardNumber s.currentCard) c = 1) ∨
        (guess = "lower" ∧ compareCards (cardNumber s.currentCard) c = -1)) →
      (handleGuess guess s).playerScore = s.playerScore + 1 ∧
      (handleGuess guess s).dealerScore = s.dealerScore ∧
      (handleGuess guess s).history = s.history ++
        [{ baseCard := s.currentCard, newCard := c, outcome := "win",
           winningSide := some "player", guess := guess }]) ∧
    (¬ ((guess = "higher" ∧ compareCards (cardNumber s.currentCard) c = 1) ∨
        (guess = "lower" ∧ compareCards (cardNumber s.currentCard) c = -1)) →
      (handleGuess guess s).playerScore = s.playerScore ∧
      (handleGuess guess s).dealerScore = s.dealerScore + 1 ∧
      (handleGuess guess s).history = s.history ++
        [{ baseCard := s.currentCard, newCard := c, outcome := "loss",
           winningSide := some "dealer", guess := guess }]) ∧
    (handleGuess guess s).roundsCompleted = s.roundsCompleted + 1 ∧
    (handleGuess guess s).deck = init ∧
    (handleGuess guess s).currentCard = some c := by
  rw [handleGuess_counted_eq guess s init c hdeck hcomp]
  by_cases hw : (guess = "higher" ∧ compareCards (cardNumber s.currentCard) c = 1) ∨
      (guess = "lower" ∧ compareCards (cardNumber s.currentCard) c = -1)
  · split_ifs <;> simp [hw, endGame, setMessage, countedState, displayCurrentCard]
  · split_ifs <;> simp [hw, endGame, setMessage, countedState, displayCurrentCard]

/-- Instance of C4: current card 5 of Clubs, next card 9 of Clubs, guess "higher": the player
scores, the round is counted and the record is a win of the player. -/
theorem handleGuess_counted_round_witness :
    (handleGuess "higher" { State.initial with deck := [7, 9], currentCard := some 5 }).playerScore
        = 1 ∧
    (handleGuess "higher" { State.initial with deck := [7, 9], currentCard := some 5 }).history
        = [{ baseCard := some 5, newCard := 9, outcome := "win", winningSide := some "player",
             guess := "higher" }] ∧
    (handleGuess "higher" { State.initial with deck := [7, 9], currentCard := some 5 }).deck
        = [7] :=
  have h := handleGuess_counted_round "higher"
    { State.initial with deck := [7, 9], currentCard := some 5 } [7] 9 rfl (by decide)
  ⟨(h.1 (by decide)).1, (h.1 (by decide)).2.2, h.2.2.2.1⟩

/-- C5: in a state whose deck is not empty and whose last card `c` compares as a draw with the
current card, `handleGuess guess` does not count the round: both scores and `roundsCompleted`
are unchanged and the game is not ended (the message is the draw message, the guess controls
and the start button stay as they were); exactly one record with outcome draw, no winning
side, the old current card, `c` and the guess is appended to the end of the history; `c`
leaves the deck and becomes the current card. -/
theorem handleGuess_draw_not_counted (guess : String) (s : State) (init : List Nat) (c : Nat)
    (hdeck : s.deck = init ++ [c])
    (hcomp : compareCards (cardNumber s.currentCard) c = 0) :
    (handleGuess guess s).playerScore = s.playerScore ∧
    (handleGuess guess s).dealerScore = s.dealerScore ∧
    (handleGuess guess s).roundsCompleted = s.roundsCompleted ∧
    ¬ Ended (handleGuess guess s) ∧
    (handleGuess guess s).dom.message =
      "It was a draw (same rank and colour). This round will not be counted." ∧
    (handleGuess guess s).dom.guessSectionDisplay = s.dom.guessSectionDisplay ∧
    (handleGuess guess s).dom.startBtnDisplay = s.dom.startBtnDisplay ∧
    (handleGuess guess s).history = s.history ++
      [{ baseCard := s.currentCard, newCard := c, outcome := "draw", winningSide := none,
         guess := guess }] ∧
    (handleGuess guess s).deck = init ∧
    (handleGuess guess s).currentCard = some c := by
  rw [handleGuess_draw_eq guess s init c hdeck hcomp]
  refine ⟨rfl, rfl, rfl, ?_, rfl, rfl, rfl, rfl, rfl, rfl⟩
  intro h
  have hm := h.1
  simp only [displayCurrentCard, gameOverMessages] at hm
  revert hm
  decide

/-- Instance of C5: current card 5 of Clubs, next card 5 of Spades (id 44): a draw record is
appended and nothing is counted. -/
theorem handleGuess_draw_not_counted_witness :
    (handleGuess "lower" { State.initial with deck := [7, 44], currentCard := some 5 }).history
        = [{ baseCard := some 5, newCard := 44, outcome := "draw", winningSide := none,
             guess := "lower" }] ∧
    (handleGuess "lower"
        { State.initial with deck := [7, 44], currentCard := some 5 }).roundsCompleted = 0 ∧
    (handleGuess "lower" { State.initial with deck := [7, 44], currentCard := some 5 }).deck
        = [7] :=
  have h := handleGuess_draw_not_counted "lower"
    { State.initial with deck := [7, 44], currentCard := some 5 } [7] 44 rfl (by decide)
  ⟨h.2.2.2.2.2.2.2.1, h.2.2.1, h.2.2.2.2.2.2.2.2.1⟩

/-- What one `handleGuess` call does to the round counter and to the two controls, in each
of its three branches. -/
theorem handleGuess_step (guess : String) (s : State) :
    (¬ Ended (handleGuess guess s) ∧
      (handleGuess guess s).roundsCompleted ≤ s.roundsCompleted + 1 ∧
      s.roundsCompleted ≤ (handleGuess guess s).roundsCompleted ∧
      ((handleGuess guess s).roundsCompleted = s.roundsCompleted + 1 → s.roundsCompleted < 4) ∧
      (handleGuess guess s).dom.guessSectionDisplay = s.dom.guessSectionDisplay ∧
      (handleGuess guess s).dom.startBtnDisplay = s.dom.startBtnDisplay) ∨
    (Ended (handleGuess guess s) ∧
      (handleGuess guess s).roundsCompleted = s.roundsCompleted + 1 ∧
      4 ≤ s.roundsCompleted ∧
      ∃ init c, s.deck = init ++ [c] ∧ compareCards (cardNumber s.currentCard) c ≠ 0) := by
  rcases deck_cases s.deck with h | ⟨init, c, h⟩
  · left
    rw [handleGuess_empty guess s h]
    refine ⟨?_, by simp [setMessage], by simp [setMessage], by simp [setMessage], rfl, rfl⟩
    intro hE
    have hm := hE.1
    simp only [setMessage, gameOverMessages] at hm
    revert hm
    decide
  · by_cases hcomp : compareCards (cardNumber s.currentCard) c = 0
    · left
      rw [handleGuess_draw_eq guess s init c h hcomp]
      refine ⟨fun hE => ?_, by simp [displayCurrentCard], by simp [displayCurrentCard],
        by simp [displayCurrentCard], rfl, rfl⟩
      have hm := hE.1
      simp only [displayCurrentCard, gameOverMessages] at hm
      revert hm
      decide
    · rw [handleGuess_counted_eq guess s init c h hcomp]
      by_cases hr : 5 ≤ s.roundsCompleted + 1
      · right
        rw [if_pos hr]
        refine ⟨endGame_Ended _, ?_, by omega, init, c, h, hcomp⟩
        rw [(endGame_frame _).2.2.1]
        simp [countedState, displayCurrentCard]
      · left
        rw [if_neg hr]
        have hrc : (countedState guess s init c).roundsCompleted = s.roundsCompleted + 1 := by
          simp [countedState, displayCurrentCard]
        refine ⟨fun hE => countedState_message guess s init c hE.1, by omega, by omega,
          fun _ => by omega, (countedState_display guess s init c).1,
          (countedState_display guess s init c).2⟩

theorem startGame_Playing (rand : Nat → Nat) (s0 : State) :
    Playing (startGame rand s0) ∧ (startGame rand s0).roundsCompleted = 0 := by
  simp [startGame, Playing, setMessage, displayCurrentCard, updateScoreboard, initializeDeck]

theorem Playing_not_Ended (s : State) (h : Playing s) : ¬ Ended s := by
  intro hE
  have h1 := h.1
  rw [hE.2.1] at h1
  revert h1
  decide

theorem playGuesses_snoc (guesses : List String) (g : String) (s : State) :
    playGuesses (guesses ++ [g]) s = handleGuess g (playGuesses guesses s) := by
  simp [playGuesses, List.foldl_append]

/-- While fewer than five rounds are counted, a session started by `startGame` shows the
guess controls. -/
theorem playGuesses_Playing (rand : Nat → Nat) (s0 : State) (guesses : List String) :
    (playGuesses guesses (startGame rand s0)).roundsCompleted < 5 →
      Playing (playGuesses guesses (startGame rand s0)) := by
  induction guesses using List.reverseRecOn with
  | nil => intro _; exact (startGame_Playing rand s0).1
  | append_singleton gs g ih =>
    rw [playGuesses_snoc]
    intro hlt
    rcases handleGuess_step g (playGuesses gs (startGame rand s0)) with h | h
    · have hp := ih (by omega)
      exact ⟨by rw [h.2.2.2.2.1]; exact hp.1, by rw [h.2.2.2.2.2]; exact hp.2⟩
    · omega

/-- C6: `handleGuess` ends the game exactly when the round it resolved was counted (deck not
empty, comparison not a draw) and `roundsCompleted` after the increment is at least the round
limit 5, and the call that ends the game has raised `roundsCompleted` by one; otherwise the
game is not ended and the guess controls and the start button stay as they were.  In a run
of guesses from `startGame`, while fewer than five rounds are counted the game is Playing and
not ended, and the next guess ends it iff it is the fifth counted round, that is iff it
brings `roundsCompleted` to 5. -/
theorem handleGuess_ends_iff :
    (∀ (guess : String) (s : State),
      Ended (handleGuess guess s) ↔
        ∃ init c, s.deck = init ++ [c] ∧ compareCards (cardNumber s.currentCard) c ≠ 0 ∧
          5 ≤ s.roundsCompleted + 1) ∧
    (∀ (guess : String) (s : State), Ended (handleGuess guess s) →
      (handleGuess guess s).roundsCompleted = s.roundsCompleted + 1 ∧
      5 ≤ (handleGuess guess s).roundsCompleted) ∧
    (∀ (guess : String) (s : State), ¬ Ended (handleGuess guess s) →
      (handleGuess guess s).dom.guessSectionDisplay = s.dom.guessSectionDisplay ∧
      (handleGuess guess s).dom.startBtnDisplay = s.dom.startBtnDisplay ∧
      (Playing s → Playing (handleGuess guess s))) ∧
    (∀ (rand : Nat → Nat) (s0 : State) (guesses : List String) (g : String),
      (playGuesses guesses (startGame rand s0)).roundsCompleted < 5 →
        Playing (playGuesses guesses (startGame rand s0)) ∧
        ¬ Ended (playGuesses guesses (startGame rand s0)) ∧
        (Ended (handleGuess g (playGuesses guesses (startGame rand s0))) ↔
          (handleGuess g (playGuesses guesses (startGame rand s0))).roundsCompleted = 5) ∧
        (Ended (handleGuess g (playGuesses guesses (startGame rand s0))) ↔
          ((playGuesses guesses (startGame rand s0)).roundsCompleted = 4 ∧
            ∃ init c, (playGuesses guesses (startGame rand s0)).deck = init ++ [c] ∧
              compareCards
                (cardNumber (playGuesses guesses (startGame rand s0)).currentCard) c ≠ 0))) := by
  have hiff : ∀ (guess : String) (s : State),
      Ended (handleGuess guess s) ↔
        ∃ init c, s.deck = init ++ [c] ∧ compareCards (cardNumber s.currentCard) c ≠ 0 ∧
          5 ≤ s.roundsCompleted + 1 := by
    intro guess s
    constructor
    · intro hE
      rcases handleGuess_step guess s with h | h
      · exact absurd hE h.1
      · obtain ⟨init, c, hd, hc⟩ := h.2.2.2
        exact ⟨init, c, hd, hc, by omega⟩
    · rintro ⟨init, c, hd, hc, hr⟩
      rw [handleGuess_counted_eq guess s init c hd hc, if_pos hr]
      exact endGame_Ended _
  refine ⟨hiff, fun guess s hE => ?_, fun guess s hE => ?_, fun rand s0 guesses g hlt => ?_⟩
  · rcases handleGuess_step guess s with h | h
    · exact absurd hE h.1
    · exact ⟨h.2.1, by omega⟩
  · rcases handleGuess_step guess s with h | h
    · refine ⟨h.2.2.2.2.1, h.2.2.2.2.2, fun hp => ?_⟩
      exact ⟨by rw [h.2.2.2.2.1]; exact hp.1, by rw [h.2.2.2.2.2]; exact hp.2⟩
    · exact absurd h.1 hE
  · have hp := playGuesses_Playing rand s0 guesses hlt
    refine ⟨hp, Playing_not_Ended _ hp, ?_, ?_⟩
    · rcases handleGuess_step g (playGuesses guesses (startGame rand s0)) with h | h
      · exact ⟨fun hE => absurd hE h.1, fun h5 => by omega⟩
      · exact ⟨fun _ => by omega, fun _ => h.1⟩
    · rw [hiff]
      constructor
      · rintro ⟨init, c, hd, hc, hr⟩
        exact ⟨by omega, init, c, hd, hc⟩
      · rintro ⟨h4, init, c, hd, hc⟩
        exact ⟨init, c, hd, hc, by omega⟩

/-- Instance of C6: with the unshuffled deck (every swap index `j = i`) and the guess "lower"
each time, the game is Playing after four counted rounds and the fifth guess ends it. -/
theorem handleGuess_ends_iff_witness :
    Playing (playGuesses ["lower", "lower", "lower", "lower"]
      (startGame (fun i => i) State.initial)) ∧
    Ended (handleGuess "lower" (playGuesses ["lower", "lower", "lower", "lower"]
      (startGame (fun i => i) State.initial))) :=
  have h := handleGuess_ends_iff.2.2.2 (fun i => i) State.initial
    ["lower", "lower", "lower", "lower"] "lower" (by set_option maxRecDepth 100000 in decide)
  ⟨h.1, h.2.2.1.mpr (by set_option maxRecDepth 100000 in decide)⟩

/-- C7: the verdict of `endGame` is "You win!" iff the player's score is the greater one,
"Dealer wins!" iff the dealer's score is the greater one and the tie message iff the scores are
equal (3/2, 4/1 and 5/0 give the player, 2/3 the dealer); `endGame` changes no score, no
counter, and neither the deck, the current card nor the history. -/
theorem endGame_verdict (s : State) :
    ((endGame s).dom.message = "Game Over. You win!" ↔ s.playerScore > s.dealerScore) ∧
    ((endGame s).dom.message = "Game Over. Dealer wins!" ↔ s.dealerScore > s.playerScore) ∧
    ((endGame s).dom.message = "Game Over. It’s a tie!" ↔ s.playerScore = s.dealerScore) ∧
    (s.playerScore = 3 → s.dealerScore = 2 → (endGame s).dom.message = "Game Over. You win!") ∧
    (s.playerScore = 4 → s.dealerScore = 1 → (endGame s).dom.message = "Game Over. You win!") ∧
    (s.playerScore = 5 → s.dealerScore = 0 → (endGame s).dom.message = "Game Over. You win!") ∧
    (s.playerScore = 2 → s.dealerScore = 3 →
      (endGame s).dom.message = "Game Over. Dealer wins!") ∧
    (endGame s).playerScore = s.playerScore ∧ (endGame s).dealerScore = s.dealerScore ∧
    (endGame s).roundsCompleted = s.roundsCompleted ∧ (endGame s).deck = s.deck ∧
    (endGame s).currentCard = s.currentCard ∧ (endGame s).history = s.history := by
  have hmsg : (endGame s).dom.message =
      if s.playerScore > s.dealerScore then "Game Over. You win!"
      else if s.dealerScore > s.playerScore then "Game Over. Dealer wins!"
      else "Game Over. It’s a tie!" := by
    simp [endGame, setMessage]
  have hf := endGame_frame s
  refine ⟨?_, ?_, ?_, ?_, ?_, ?_, ?_, hf.2.2.2.1, hf.2.2.2.2.1, hf.2.2.1, hf.1, hf.2.1,
    hf.2.2.2.2.2⟩
  all_goals rw [hmsg]
  · split_ifs <;> simp <;> omega
  · split_ifs <;> simp <;> omega
  · split_ifs <;> simp <;> omega
  · intro h1 h2; rw [if_pos (by omega)]
  · intro h1 h2; rw [if_pos (by omega)]
  · intro h1 h2; rw [if_pos (by omega)]
  · intro h1 h2; rw [if_neg (by omega), if_pos (by omega)]

/-- C9: in a state whose deck is empty, `handleGuess guess` writes the "No more cards" message
and changes nothing else: deck, current card, `roundsCompleted`, both scores and the history
are unchanged, no card is drawn and the game is not ended. -/
theorem handleGuess_empty_deck (guess : String) (s : State) (h : s.deck = []) :
    handleGuess guess s = { s with dom := { s.dom with message := "No more cards in deck!" } } ∧
    (handleGuess guess s).deck = s.deck ∧
    (handleGuess guess s).currentCard = s.currentCard ∧
    (handleGuess guess s).roundsCompleted = s.roundsCompleted ∧
    (handleGuess guess s).playerScore = s.playerScore ∧
    (handleGuess guess s).dealerScore = s.dealerScore ∧
    (handleGuess guess s).history = s.history ∧
    (handleGuess guess s).dom.message = "No more cards in deck!" ∧
    ¬ Ended (handleGuess guess s) := by
  rw [handleGuess_empty guess s h]
  refine ⟨rfl, rfl, rfl, rfl, rfl, rfl, rfl, rfl, ?_⟩
  intro hE
  have hm := hE.1
  simp only [setMessage, gameOverMessages] at hm
  revert hm
  decide

/-- Instance of C9: a guess before any game was started, and a guess with the deck used up
after three counted rounds. -/
theorem handleGuess_empty_deck_witness :
    handleGuess "higher" State.initial =
      { State.initial with dom := { Dom.blank with message := "No more cards in deck!" } } ∧
    (handleGuess "lower"
      { State.initial with currentCard := some 7, roundsCompleted := 3 }).roundsCompleted = 3 :=
  ⟨(handleGuess_empty_deck "higher" State.initial rfl).1,
   (handleGuess_empty_deck "lower"
      { State.initial with currentCard := some 7, roundsCompleted := 3 } rfl).2.2.2.1⟩

/-! ## Deck: the shuffle keeps the cards -/

theorem set_set_perm_self (l : List Nat) (i j : Nat) (hi : i < l.length) (hj : j < l.length) :
    ((l.set i l[j]).set j l[i]).Perm l := by
  rw [List.perm_iff_count]
  intro a
  rw [List.count_set _ _ _ _ (by simpa using hj), List.count_set _ _ _ _ hi]
  by_cases hij : i = j
  · subst hij
    simp only [List.getElem_set_self]
    by_cases e : l[i] = a
    · subst e; simp
    · simp [e]
  · rw [List.getElem_set_ne hij]
    by_cases e1 : l[i] = a <;> by_cases e2 : l[j] = a
    · subst e1; simp [e2]
    · subst e1; simp [e2]
    · subst e2; simp [e1]
    · simp [e1, e2]

theorem swap_perm (deck : List Nat) (i j : Nat) : (swap deck i j).Perm deck := by
  unfold swap
  split
  · rename_i dj di hj hi
    obtain ⟨hj', rfl⟩ := List.getElem?_eq_some_iff.mp hj
    obtain ⟨hi', rfl⟩ := List.getElem?_eq_some_iff.mp hi
    exact set_set_perm_self deck i j hi' hj'
  · exact List.Perm.refl _

theorem shuffleLoop_perm (rand : Nat → Nat) (i : Nat) (deck : List Nat) :
    (shuffleLoop rand i deck).Perm deck := by
  induction i generalizing deck with
  | zero => exact List.Perm.refl _
  | succ i ih => exact (ih _).trans (swap_perm deck (i + 1) (rand (i + 1)))

theorem fillDeck_eq : fillDeck = List.range' 1 52 := by decide

/-- C8: for every supply of swap indices `j` with `0 ≤ j ≤ i` in the iterations `i = 51`
down to `1`, and every prior state, the deck left by `initializeDeck` is a permutation of
1..52: it has length 52 and holds each id of 1..52 exactly once (and nothing else). -/
theorem initializeDeck_perm (rand : Nat → Nat) (s : State) (hrand : ValidRand rand) :
    (initializeDeck rand s).deck.Perm (List.range' 1 52) ∧
    (initializeDeck rand s).deck.length = 52 ∧
    (∀ id, 1 ≤ id → id ≤ 52 → (initializeDeck rand s).deck.count id = 1) ∧
    (∀ id ∈ (initializeDeck rand s).deck, 1 ≤ id ∧ id ≤ 52) ∧
    (initializeDeck rand s).deck.Nodup := by
  have hp : (initializeDeck rand s).deck.Perm (List.range' 1 52) := by
    have h := shuffleLoop_perm rand (fillDeck.length - 1) fillDeck
    rw [fillDeck_eq] at h
    simpa [initializeDeck, fillDeck_eq] using h
  have hnd : (List.range' 1 52).Nodup := List.nodup_range' 1 52
  refine ⟨hp, by rw [hp.length_eq]; rfl, fun id h1 h2 => ?_, fun id hid => ?_,
    hp.nodup_iff.mpr hnd⟩
  · rw [hp.count_eq]
    exact List.count_eq_one_of_mem hnd (mem_range_ids.mpr ⟨h1, h2⟩)
  · exact mem_range_ids.mp (hp.mem_iff.mp hid)

/-- Instance of C8 for the swap indices `j = i / 2`, from the state of a freshly loaded
page. -/
theorem initializeDeck_perm_witness :
    ValidRand (fun i => i / 2) ∧
    (initializeDeck (fun i => i / 2) State.initial).deck.Perm (List.range' 1 52) ∧
    (initializeDeck (fun i => i / 2) State.initial).deck.length = 52 :=
  have hv : ValidRand (fun i => i / 2) := fun i _ _ => Nat.div_le_self i 2
  ⟨hv, (initializeDeck_perm (fun i => i / 2) State.initial hv).1,
    (initializeDeck_perm (fun i => i / 2) State.initial hv).2.1⟩

theorem drawRand_valid : ValidRand drawRand := by
  intro i _ _
  unfold drawRand
  split_ifs <;> omega

/-- C10, as stated, fails: the 5 of Clubs (id 5) and the 5 of Spades (id 44) are two
distinct ids of 1..52 with the same rank and the same colour, and they compare as a draw.
The draw branch of `handleGuess` is reached in a game: with the swap indices `drawRand` the
game starts on the King of Spades, the first guess draws the King of Clubs and a draw is
recorded. -/
theorem compareCards_distinct_draw :
    (1 ≤ 5 ∧ 5 ≤ 52 ∧ 1 ≤ 44 ∧ 44 ≤ 52 ∧ 5 ≠ 44 ∧
      (getCardInfo 5).rank = some "5" ∧ (getCardInfo 5).suit = some "Clubs" ∧
      (getCardInfo 44).rank = some "5" ∧ (getCardInfo 44).suit = some "Spades" ∧
      compareCards 5 44 = 0) ∧
    ValidRand drawRand ∧
    ((startGame drawRand State.initial).currentCard = some 52 ∧
      (startGame drawRand State.initial).deck.getLast? = some 13 ∧
      (handleGuess "higher" (startGame drawRand State.initial)).history =
        [{ baseCard := some 52, newCard := 13, outcome := "draw", winningSide := none,
           guess := "higher" }] ∧
      (handleGuess "higher" (startGame drawRand State.initial)).roundsCompleted = 0) :=
  ⟨by decide, drawRand_valid, by set_option maxRecDepth 100000 in decide⟩

/-- C10, amended: between two distinct ids `a`, `b` of 1..52 a draw is produced exactly when
they have the same rank and the same colour, that is when they are the Clubs and Spades cards
of one rank (ids 39 apart) or the Diamonds and Hearts cards of one rank (ids 13 apart, the
smaller one in 14..26); for every other pair `compareCards a b ≠ 0`.  The draw branch of
`handleGuess` is reachable: there are swap indices, allowed by the shuffle, after which the
first guess of the game compares as a draw. -/
theorem compareCards_distinct_zero_iff :
    (∀ a b : Nat, 1 ≤ a → a ≤ 52 → 1 ≤ b → b ≤ 52 → a ≠ b →
      (compareCards a b = 0 ↔
        ((getCardInfo a).rank = (getCardInfo b).rank ∧
          (getCardInfo a).color = (getCardInfo b).color)) ∧
      (compareCards a b = 0 ↔
        (b = a + 39 ∨ a = b + 39 ∨ (14 ≤ a ∧ a ≤ 26 ∧ b = a + 13) ∨
          (14 ≤ b ∧ b ≤ 26 ∧ a = b + 13)))) ∧
    (∃ rand, ValidRand rand ∧ ∃ c,
      (startGame rand State.initial).deck.getLast? = some c ∧
      compareCards (cardNumber (startGame rand State.initial).currentCard) c = 0 ∧
      ∀ guess, (handleGuess guess (startGame rand State.initial)).roundsCompleted = 0) := by
  refine ⟨fun a b ha1 ha2 hb1 hb2 hab =>
    compareCards_zero_all a (mem_range_ids.mpr ⟨ha1, ha2⟩) b (mem_range_ids.mpr ⟨hb1, hb2⟩) hab,
    drawRand, drawRand_valid, 13, by set_option maxRecDepth 100000 in decide,
    by set_option maxRecDepth 100000 in decide, fun guess => ?_⟩
  have hd : (startGame drawRand State.initial).deck =
      (startGame drawRand State.initial).deck.dropLast ++ [13] := by
    set_option maxRecDepth 100000 in decide
  have hc : compareCards (cardNumber (startGame drawRand State.initial).currentCard) 13 = 0 := by
    set_option maxRecDepth 100000 in decide
  rw [handleGuess_draw_eq guess _ _ 13 hd hc]
  rfl

/-- Instances of the amended C10: King of Spades against King of Clubs is a draw, King of
Spades against King of Hearts is not. -/
theorem compareCards_distinct_zero_iff_witness :
    compareCards 52 13 = 0 ∧ compareCards 52 39 ≠ 0 :=
  ⟨(compareCards_distinct_zero_iff.1 52 13 (by decide) (by decide) (by decide) (by decide)
      (by decide)).2.mpr (by decide),
   fun h => absurd ((compareCards_distinct_zero_iff.1 52 39 (by decide) (by decide) (by decide)
      (by decide) (by decide)).2.mp h) (by decide)⟩

/-! ## Comparison: draws and antisymmetry -/

set_option maxRecDepth 100000 in
theorem compareCards_zero_iff_all :
    ∀ a ∈ List.range' 1 52, ∀ b ∈ List.range' 1 52,
      (compareCards a b = 0 ↔
        ((getCardInfo a).rank = (getCardInfo b).rank ∧
          (getCardInfo a).color = (getCardInfo b).color)) ∧
      ((getCardInfo a).value = (getCardInfo b).value →
        (getCardInfo a).rank = (getCardInfo b).rank) := by
  decide

set_option maxRecDepth 100000 in
theorem compareCards_antisymm_all :
    ∀ a ∈ List.range' 1 52, ∀ b ∈ List.range' 1 52, compareCards a b = - compareCards b a := by
  decide

theorem compareCards_self_all : ∀ c ∈ List.range' 1 52, compareCards c c = 0 := by
  decide

/-- C11: for card ids `a`, `b` in 1..52, `compareCards a b = 0` if and only if `a` and `b`
have the same rank and the same colour; two cards with equal values have equal ranks (value
ties between different ranks are impossible); in particular `compareCards c c = 0` for every
card `c`. -/
theorem compareCards_draw_iff_same_rank_color (a b : Nat)
    (ha1 : 1 ≤ a) (ha2 : a ≤ 52) (hb1 : 1 ≤ b) (hb2 : b ≤ 52) :
    (compareCards a b = 0 ↔
      ((getCardInfo a).rank = (getCardInfo b).rank ∧
        (getCardInfo a).color = (getCardInfo b).color)) ∧
    ((getCardInfo a).value = (getCardInfo b).value →
      (getCardInfo a).rank = (getCardInfo b).rank) ∧
    compareCards a a = 0 ∧ compareCards b b = 0 :=
  have ha := mem_range_ids.mpr ⟨ha1, ha2⟩
  have hb := mem_range_ids.mpr ⟨hb1, hb2⟩
  ⟨(compareCards_zero_iff_all a ha b hb).1, (compareCards_zero_iff_all a ha b hb).2,
    compareCards_self_all a ha, compareCards_self_all b hb⟩

/-- Instances of C11: the Queen of Diamonds and the Queen of Hearts (ids 25 and 38) compare as
a draw, the Queen of Diamonds and the Queen of Spades (id 51) do not, and the Queen of
Diamonds compares as a draw with itself. -/
theorem compareCards_draw_iff_same_rank_color_witness :
    compareCards 25 38 = 0 ∧ compareCards 25 51 ≠ 0 ∧ compareCards 25 25 = 0 :=
  ⟨(compareCards_draw_iff_same_rank_color 25 38 (by decide) (by decide) (by decide) (by decide)).1.mpr
      (by decide),
   fun h => absurd ((compareCards_draw_iff_same_rank_color 25 51 (by decide) (by decide) (by decide)
      (by decide)).1.mp h).2 (by decide),
   (compareCards_draw_iff_same_rank_color 25 38 (by decide) (by decide) (by decide) (by decide)).2.2.1⟩

/-- C13: `quitGame` leaves both scores, `roundsCompleted`, the history, the deck and the
current card unchanged and writes no verdict: it only changes the page, which shows the quit
message, hides the guess controls, shows the start button and turns the card face down. -/
theorem quitGame_frame (s : State) :
    (quitGame s).playerScore = s.playerScore ∧ (quitGame s).dealerScore = s.dealerScore ∧
    (quitGame s).roundsCompleted = s.roundsCompleted ∧ (quitGame s).history = s.history ∧
    (quitGame s).deck = s.deck ∧ (quitGame s).currentCard = s.currentCard ∧
    (quitGame s).dom.message = "You quit the game." ∧
    (quitGame s).dom.message ∉ gameOverMessages ∧ ¬ Ended (quitGame s) ∧
    ¬ Playing (quitGame s) ∧
    (quitGame s).dom.guessSectionDisplay = "none" ∧
    (quitGame s).dom.startBtnDisplay = "block" ∧
    (quitGame s).dom.cardImgSrc = "images/back.png" ∧
    (quitGame s).dom.playerScoreText = s.dom.playerScoreText ∧
    (quitGame s).dom.dealerScoreText = s.dom.dealerScoreText ∧
    (quitGame s).dom.roundCountText = s.dom.roundCountText ∧
    (quitGame s).dom.historyList = s.dom.historyList := by
  refine ⟨rfl, rfl, rfl, rfl, rfl, rfl, rfl, by simp [quitGame, setMessage, gameOverMessages],
    ?_, ?_, rfl, rfl, rfl, rfl, rfl, rfl, rfl⟩
  · intro hE
    have hm := hE.1
    simp [quitGame, setMessage, gameOverMessages] at hm
  · intro hP
    have h1 := hP.1
    simp [quitGame, setMessage] at h1

/-! ## Session: drawing a card -/

/-- What `handleGuess` does to the session variables when the deck is not empty: the last
card is drawn and one record is appended, as a draw or as a counted round. -/
theorem handleGuess_drawn (guess : String) (s : State) (init : List Nat) (c : Nat)
    (hdeck : s.deck = init ++ [c]) :
    ∃ r : RoundRecord,
      (handleGuess guess s).history = s.history ++ [r] ∧
      r.baseCard = s.currentCard ∧ r.newCard = c ∧ r.guess = guess ∧
      (handleGuess guess s).deck = init ∧ (handleGuess guess s).currentCard = some c ∧
      ((compareCards (cardNumber s.currentCard) c = 0 ∧ r.outcome = "draw" ∧
          r.winningSide = none ∧
          (handleGuess guess s).roundsCompleted = s.roundsCompleted ∧
          (handleGuess guess s).playerScore = s.playerScore ∧
          (handleGuess guess s).dealerScore = s.dealerScore) ∨
        (compareCards (cardNumber s.currentCard) c ≠ 0 ∧
          (handleGuess guess s).roundsCompleted = s.roundsCompleted + 1 ∧
          ((((guess = "higher" ∧ compareCards (cardNumber s.currentCard) c = 1) ∨
                (guess = "lower" ∧ compareCards (cardNumber s.currentCard) c = -1)) ∧
              r.outcome = "win" ∧ r.winningSide = some "player" ∧
              (handleGuess guess s).playerScore = s.playerScore + 1 ∧
              (handleGuess guess s).dealerScore = s.dealerScore) ∨
            (¬ ((guess = "higher" ∧ compareCards (cardNumber s.currentCard) c = 1) ∨
                (guess = "lower" ∧ compareCards (cardNumber s.currentCard) c = -1)) ∧
              r.outcome = "loss" ∧ r.winningSide = some "dealer" ∧
              (handleGuess guess s).playerScore = s.playerScore ∧
              (handleGuess guess s).dealerScore = s.dealerScore + 1)))) := by
  by_cases hcomp : compareCards (cardNumber s.currentCard) c = 0
  · rw [handleGuess_draw_eq guess s init c hdeck hcomp]
    exact ⟨_, rfl, rfl, rfl, rfl, rfl, rfl, Or.inl ⟨hcomp, rfl, rfl, rfl, rfl, rfl⟩⟩
  · rw [handleGuess_counted_eq guess s init c hdeck hcomp]
    by_cases hw : (guess = "higher" ∧ compareCards (cardNumber s.currentCard) c = 1) ∨
        (guess = "lower" ∧ compareCards (cardNumber s.currentCard) c = -1)
    · refine ⟨{ baseCard := s.currentCard, newCard := c, outcome := "win",
                winningSide := some "player", guess := guess }, ?_, rfl, rfl, rfl, ?_, ?_,
        Or.inr ⟨hcomp, ?_, Or.inl ⟨hw, rfl, rfl, ?_, ?_⟩⟩⟩ <;>
      split_ifs <;> simp [hw, endGame, setMessage, countedState, displayCurrentCard]
    · refine ⟨{ baseCard := s.currentCard, newCard := c, outcome := "loss",
                winningSide := some "dealer", guess := guess }, ?_, rfl, rfl, rfl, ?_, ?_,
        Or.inr ⟨hcomp, ?_, Or.inr ⟨hw, rfl, rfl, ?_, ?_⟩⟩⟩ <;>
      split_ifs <;> simp [hw, endGame, setMessage, countedState, displayCurrentCard]

theorem playerWins_iff (guess : String) (s : State) (init : List Nat) (c : Nat)
    (hdeck : s.deck = init ++ [c]) (hcomp : compareCards (cardNumber s.currentCard) c ≠ 0) :
    playerWins guess s ↔
      ((guess = "higher" ∧ compareCards (cardNumber s.currentCard) c = 1) ∨
        (guess = "lower" ∧ compareCards (cardNumber s.currentCard) c = -1)) := by
  obtain ⟨r, -, -, -, -, -, -, h | ⟨-, -, h | h⟩⟩ := handleGuess_drawn guess s init c hdeck
  · exact absurd h.1 hcomp
  · exact ⟨fun _ => h.1, fun _ => h.2.2.2.1⟩
  · refine ⟨fun hp => ?_, fun hw => absurd hw h.1⟩
    unfold playerWins at hp
    omega

/-- C19: `compareCards` is antisymmetric on the ids 1..52: `compareCards a b` is the negative
of `compareCards b a`.  So when a round with current card `a` and next card `b` is not a draw,
exactly one of the guesses "higher" and "lower" wins it, and in the round with the two cards
exchanged the other guess wins. -/
theorem compareCards_antisymmetric (a b : Nat)
    (ha1 : 1 ≤ a) (ha2 : a ≤ 52) (hb1 : 1 ≤ b) (hb2 : b ≤ 52) :
    compareCards a b = - compareCards b a ∧
    (compareCards a b ≠ 0 →
      ∀ (s t : State) (init init2 : List Nat),
        s.currentCard = some a → s.deck = init ++ [b] →
        t.currentCard = some b → t.deck = init2 ++ [a] →
          (playerWins "higher" s ↔ ¬ playerWins "lower" s) ∧
          (playerWins "higher" s ↔ playerWins "lower" t) ∧
          (playerWins "lower" s ↔ playerWins "higher" t)) := by
  have hanti := compareCards_antisymm_all a (mem_range_ids.mpr ⟨ha1, ha2⟩) b
    (mem_range_ids.mpr ⟨hb1, hb2⟩)
  refine ⟨hanti, fun hne s t init init2 hsc hsd htc htd => ?_⟩
  have hs : compareCards (cardNumber s.currentCard) b ≠ 0 := by
    rw [hsc]; exact hne
  have ht : compareCards (cardNumber t.currentCard) a ≠ 0 := by
    rw [htc]; simp only [cardNumber, Option.getD_some]; omega
  rw [playerWins_iff "higher" s init b hsd hs, playerWins_iff "lower" s init b hsd hs,
    playerWins_iff "lower" t init2 a htd ht, playerWins_iff "higher" t init2 a htd ht,
    hsc, htc]
  simp only [cardNumber, Option.getD_some]
  have hr := compareCards_range a b
  have hd : ("higher" : String) ≠ "lower" := by decide
  have hd2 : ("lower" : String) ≠ "higher" := by decide
  simp only [hd, hd2, false_and, true_and, or_false, false_or]
  omega

/-- Instance of C19: from the 5 of Clubs to the 9 of Clubs "higher" wins and "lower" does
not; from the 9 to the 5 it is "lower" that wins. -/
theorem compareCards_antisymmetric_witness :
    compareCards 5 9 = - compareCards 9 5 ∧
    (playerWins "higher" { State.initial with deck := [9], currentCard := some 5 } ↔
      playerWins "lower" { State.initial with deck := [5], currentCard := some 9 }) :=
  have h := compareCards_antisymmetric 5 9 (by decide) (by decide) (by decide) (by decide)
  ⟨h.1, (h.2 (by decide) { State.initial with deck := [9], currentCard := some 5 }
    { State.initial with deck := [5], currentCard := some 9 } [] [] rfl rfl rfl rfl).2.1⟩

/-! ## Session: guesses outside a game, start of a game -/

theorem handleGuess_sameSession_iff (guess : String) (s : State) :
    sameSession s (handleGuess guess s) ↔ s.deck = [] := by
  constructor
  · intro h
    rcases deck_cases s.deck with hd | ⟨init, c, hd⟩
    · exact hd
    · obtain ⟨r, -, -, -, -, hdk, -⟩ := handleGuess_drawn guess s init c hd
      have h1 := h.1
      rw [hdk, hd] at h1
      have := congrArg List.length h1
      simp at this
  · intro h
    rw [handleGuess_empty guess s h]
    exact ⟨rfl, rfl, rfl, rfl, rfl, rfl⟩

/-- C14, as stated, fails: `handleGuess` has no check of the phase.  After `quitGame` in a
started game the page is not Playing, yet a guess draws a card and appends a record; after
the fifth counted round has ended the game, a further guess is resolved and counted as a
sixth round. -/
theorem handleGuess_wrong_phase_mutates :
    ValidRand (fun i => i) ∧
    (¬ Playing (quitGame (startGame (fun i => i) State.initial)) ∧
      (quitGame (startGame (fun i => i) State.initial)).deck.length = 51 ∧
      (handleGuess "higher" (quitGame (startGame (fun i => i) State.initial))).deck.length
        = 50 ∧
      (handleGuess "higher" (quitGame (startGame (fun i => i) State.initial))).currentCard
        = some 51 ∧
      (handleGuess "higher" (quitGame (startGame (fun i => i) State.initial))).dealerScore
        = 1 ∧
      (handleGuess "higher" (quitGame (startGame (fun i => i) State.initial))).history.length
        = 1) ∧
    (Ended (playGuesses ["lower", "lower", "lower", "lower", "lower"]
        (startGame (fun i => i) State.initial)) ∧
      ¬ Playing (playGuesses ["lower", "lower", "lower", "lower", "lower"]
        (startGame (fun i => i) State.initial)) ∧
      (playGuesses ["lower", "lower", "lower", "lower", "lower"]
        (startGame (fun i => i) State.initial)).roundsCompleted = 5 ∧
      (handleGuess "lower" (playGuesses ["lower", "lower", "lower", "lower", "lower"]
        (startGame (fun i => i) State.initial))).roundsCompleted = 6 ∧
      (handleGuess "lower" (playGuesses ["lower", "lower", "lower", "lower", "lower"]
        (startGame (fun i => i) State.initial))).playerScore = 6 ∧
      (handleGuess "lower" (playGuesses ["lower", "lower", "lower", "lower", "lower"]
        (startGame (fun i => i) State.initial))).history.length = 6) :=
  ⟨fun i _ _ => le_refl i, by set_option maxRecDepth 100000 in decide,
    by set_option maxRecDepth 100000 in decide⟩

/-- C14, amended: `handleGuess` does not look at the phase; only the hidden guess controls
keep guesses out of a game that is over or was quit.  For every state and guess, the call
leaves deck, current card, `roundsCompleted`, both scores and the history unchanged if and
only if the deck is empty; so a guess before any `startGame` changes nothing, while with
cards left it draws the last card and appends one record, Playing or not.  `endGame` and
`quitGame` leave the deck as it is. -/
theorem handleGuess_unchanged_iff (guess : String) (s : State) :
    (sameSession s (handleGuess guess s) ↔ s.deck = []) ∧
    sameSession State.initial (handleGuess guess State.initial) ∧
    (∀ init c, s.deck = init ++ [c] →
      (handleGuess guess s).deck = init ∧ (handleGuess guess s).currentCard = some c ∧
      (handleGuess guess s).history.length = s.history.length + 1 ∧
      ∃ r : RoundRecord, (handleGuess guess s).history = s.history ++ [r] ∧
        r.baseCard = s.currentCard ∧ r.newCard = c ∧ r.guess = guess) ∧
    (endGame s).deck = s.deck ∧ (quitGame s).deck = s.deck := by
  refine ⟨handleGuess_sameSession_iff guess s,
    (handleGuess_sameSession_iff guess State.initial).mpr rfl, fun init c hd => ?_, rfl, rfl⟩
  obtain ⟨r, hh, hb, hn, hg, hdk, hc, -⟩ := handleGuess_drawn guess s init c hd
  exact ⟨hdk, hc, by rw [hh]; simp, r, hh, hb, hn, hg⟩

/-- Instances of the amended C14: a guess on the freshly loaded page changes no session
variable, a guess after `quitGame` in a started game does. -/
theorem handleGuess_unchanged_iff_witness :
    sameSession State.initial (handleGuess "lower" State.initial) ∧
    ¬ sameSession (quitGame (startGame (fun i => i) State.initial))
      (handleGuess "lower" (quitGame (startGame (fun i => i) State.initial))) :=
  ⟨(handleGuess_unchanged_iff "lower" State.initial).2.1,
   fun h => absurd ((handleGuess_unchanged_iff "lower"
      (quitGame (startGame (fun i => i) State.initial))).1.mp h)
      (by set_option maxRecDepth 100000 in decide)⟩

theorem shuffled_perm (rand : Nat → Nat) (s : State) :
    (initializeDeck rand s).deck.Perm (List.range' 1 52) := by
  have h := shuffleLoop_perm rand (fillDeck.length - 1) fillDeck
  rw [fillDeck_eq] at h
  simpa [initializeDeck, fillDeck_eq] using h

theorem startGame_eq (rand : Nat → Nat) (s : State) :
    startGame rand s =
      displayCurrentCard
        { deck := (initializeDeck rand s).deck.dropLast
          currentCard := (initializeDeck rand s).deck.getLast?
          roundsCompleted := 0
          playerScore := 0
          dealerScore := 0
          history := []
          dom := { message := "", guessSectionDisplay := "block", startBtnDisplay := "none",
                   cardImgSrc := "", cardImgAlt := "", playerScoreText := 0,
                   dealerScoreText := 0, roundCountText := 0, historyList := [] } } := by
  simp [startGame, setMessage, displayCurrentCard, updateScoreboard]

theorem initializeDeck_deck_eq (rand : Nat → Nat) (s t : State) :
    (initializeDeck rand s).deck = (initializeDeck rand t).deck := rfl

/-- The shuffled deck splits into the deck `startGame` leaves and the card it draws. -/
theorem startGame_split (rand : Nat → Nat) (s : State) :
    ∃ c, (startGame rand s).currentCard = some c ∧
      (initializeDeck rand s).deck = (startGame rand s).deck ++ [c] ∧
      ((startGame rand s).deck ++ [c]).Perm (List.range' 1 52) := by
  have hp := shuffled_perm rand s
  rcases deck_cases (initializeDeck rand s).deck with h | ⟨init, c, h⟩
  · rw [h] at hp
    have := hp.length_eq
    simp at this
  · refine ⟨c, ?_, ?_, ?_⟩
    · rw [startGame_eq]; simp [displayCurrentCard, h]
    · rw [startGame_eq]; simp [displayCurrentCard, h]
    · rw [startGame_eq]; simpa [displayCurrentCard, h] using hp

/-- C12: for every prior state and every shuffle outcome, `startGame` leaves
`roundsCompleted`, `playerScore` and `dealerScore` at 0 and the history empty; the current
card is the last element of the freshly shuffled 52-card deck, an id in 1..52, and the deck is
the remaining 51 distinct ids, none of them the current card; the page is Playing; the
resulting state is the same for every prior state. -/
theorem startGame_resets (rand : Nat → Nat) (s : State) (hrand : ValidRand rand) :
    (startGame rand s).roundsCompleted = 0 ∧ (startGame rand s).playerScore = 0 ∧
    (startGame rand s).dealerScore = 0 ∧ (startGame rand s).history = [] ∧
    (startGame rand s).currentCard = (initializeDeck rand s).deck.getLast? ∧
    (startGame rand s).deck = (initializeDeck rand s).deck.dropLast ∧
    (∃ c, (startGame rand s).currentCard = some c ∧ 1 ≤ c ∧ c ≤ 52 ∧
      c ∉ (startGame rand s).deck ∧
      (initializeDeck rand s).deck = (startGame rand s).deck ++ [c] ∧
      ((startGame rand s).deck ++ [c]).Perm (List.range' 1 52)) ∧
    (startGame rand s).deck.length = 51 ∧ (startGame rand s).deck.Nodup ∧
    (∀ id ∈ (startGame rand s).deck, 1 ≤ id ∧ id ≤ 52) ∧
    Playing (startGame rand s) ∧
    (∀ t : State, startGame rand t = startGame rand s) := by
  obtain ⟨c, hc, hsplit, hp⟩ := startGame_split rand s
  have hnd : ((startGame rand s).deck ++ [c]).Nodup :=
    hp.nodup_iff.mpr (List.nodup_range' 1 52)
  have hlen := hp.length_eq
  simp only [List.length_append, List.length_singleton, List.length_range'] at hlen
  refine ⟨(startGame_Playing rand s).2, by simp [startGame_eq, displayCurrentCard],
    by simp [startGame_eq, displayCurrentCard], by simp [startGame_eq, displayCurrentCard],
    by simp [startGame_eq, displayCurrentCard], by simp [startGame_eq, displayCurrentCard],
    ⟨c, hc, ?_, ?_, ?_, hsplit, hp⟩, by omega, ?_, fun id hid => ?_,
    (startGame_Playing rand s).1, fun t => ?_⟩
  · exact (mem_range_ids.mp (hp.mem_iff.mp (by simp))).1
  · exact (mem_range_ids.mp (hp.mem_iff.mp (by simp))).2
  · intro hmem
    have := List.disjoint_of_nodup_append hnd hmem
    simp at this
  · exact (List.nodup_append.mp hnd).1
  · exact mem_range_ids.mp (hp.mem_iff.mp (List.mem_append_left _ hid))
  · rw [startGame_eq, startGame_eq, initializeDeck_deck_eq rand t s]

/-- Instance of C12 for the swap indices `j = i / 2`: started from the freshly loaded page
or from a game that was quit in the middle, the game is the same, with 51 cards in the deck
and no round counted. -/
theorem startGame_resets_witness :
    ValidRand (fun i => i / 2) ∧
    (startGame (fun i => i / 2) State.initial).deck.length = 51 ∧
    (startGame (fun i => i / 2) State.initial).roundsCompleted = 0 ∧
    startGame (fun i => i / 2)
        (quitGame (playGuesses ["higher", "lower"] (startGame (fun i => i) State.initial)))
      = startGame (fun i => i / 2) State.initial :=
  have hv : ValidRand (fun i => i / 2) := fun i _ _ => Nat.div_le_self i 2
  have h := startGame_resets (fun i => i / 2) State.initial hv
  ⟨hv, h.2.2.2.2.2.2.2.1, h.1, h.2.2.2.2.2.2.2.2.2.2.2 _⟩

/-! ## The invariant of a game in progress -/

theorem no_chain_of_draws (a b c : Nat)
    (ha1 : 1 ≤ a) (ha2 : a ≤ 52) (hb1 : 1 ≤ b) (hb2 : b ≤ 52) (hc1 : 1 ≤ c) (hc2 : c ≤ 52)
    (hab : a ≠ b) (hbc : b ≠ c) (hac : a ≠ c)
    (h1 : compareCards a b = 0) (h2 : compareCards b c = 0) : False := by
  have e1 := ((compareCards_zero_all a (mem_range_ids.mpr ⟨ha1, ha2⟩) b
    (mem_range_ids.mpr ⟨hb1, hb2⟩) hab).2).mp h1
  have e2 := ((compareCards_zero_all b (mem_range_ids.mpr ⟨hb1, hb2⟩) c
    (mem_range_ids.mpr ⟨hc1, hc2⟩) hbc).2).mp h2
  omega

theorem RunInv_startGame (rand : Nat → Nat) (s0 : State) : RunInv (startGame rand s0) := by
  obtain ⟨c, hc, hsplit, hp⟩ := startGame_split rand s0
  have hh : (startGame rand s0).history = [] := by simp [startGame_eq, displayCurrentCard]
  have hr : (startGame rand s0).roundsCompleted = 0 := (startGame_Playing rand s0).2
  have hps : (startGame rand s0).playerScore = 0 := by simp [startGame_eq, displayCurrentCard]
  have hds : (startGame rand s0).dealerScore = 0 := by simp [startGame_eq, displayCurrentCard]
  have hlen := hp.length_eq
  simp only [List.length_append, List.length_singleton, List.length_range'] at hlen
  unfold RunInv seenCards
  rw [hh, hr, hps, hds, hc]
  refine ⟨⟨c, rfl⟩, by simpa using hp, List.chain'_nil, by simp, by simp, by simp, by simp,
    by simp, List.chain'_nil, by simp, by simp, by simpa using hlen, rfl⟩

theorem RunInv_handleGuess (guess : String) (s : State) (h : RunInv s) :
    RunInv (handleGuess guess s) := by
  rcases deck_cases s.deck with hd | ⟨init, c, hd⟩
  · rw [handleGuess_empty guess s hd]
    exact h
  · obtain ⟨⟨cur, hcur⟩, hperm, hchain, hlast, hps, hds, hrc, hdraw, hnodd, hlen1, hlen2, hsum, hscore⟩ := h
    obtain ⟨r, hh, hrb, hrn, -, hdk, hcc, hcase⟩ := handleGuess_drawn guess s init c hd
    rw [hcur] at hrb
    -- the cards met so far are distinct ids of 1..52
    have hperm2 : (init ++ [c] ++ [cur] ++ s.history.filterMap (fun r => r.baseCard)).Perm
        (List.range' 1 52) := by
      simpa [seenCards, hd, hcur] using hperm
    have hnd := hperm2.nodup_iff.mpr (List.nodup_range' 1 52)
    have hrange : ∀ x ∈ init ++ [c] ++ [cur] ++ s.history.filterMap (fun r => r.baseCard),
        1 ≤ x ∧ x ≤ 52 := fun x hx => mem_range_ids.mp (hperm2.mem_iff.mp hx)
    have hcur_c : cur ≠ c := by
      intro e
      subst e
      have := List.nodup_append.mp (List.nodup_append.mp hnd).1
      have hdis := List.disjoint_of_nodup_append (List.nodup_append.mp hnd).1
      exact hdis (List.mem_append_right _ (List.mem_singleton_self _)) (List.mem_singleton_self _)
    -- a draw cannot follow a draw
    have hprev : compareCards cur c = 0 → ∀ r0, s.history.getLast? = some r0 →
        r0.outcome ≠ "draw" := by
      intro hz r0 hr0 hdr
      obtain ⟨b, hb, hbz⟩ := hdraw r0 hr0 hdr
      have hcn := hlast r0 hr0
      rw [hcur] at hcn
      have hcn : r0.newCard = cur := (Option.some.inj hcn).symm
      rw [hcn] at hbz
      have hbmem : b ∈ s.history.filterMap (fun r => r.baseCard) :=
        List.mem_filterMap.mpr ⟨r0, List.mem_of_mem_getLast? hr0, hb⟩
      have hb_rng := hrange b (List.mem_append_right _ hbmem)
      have hc_rng := hrange c (by simp)
      have hcur_rng := hrange cur (by simp)
      have hb_cur : b ≠ cur := by
        intro e
        subst e
        exact List.disjoint_of_nodup_append hnd (by simp) hbmem
      have hb_c : b ≠ c := by
        intro e
        subst e
        exact List.disjoint_of_nodup_append hnd (by simp) hbmem
      exact no_chain_of_draws b cur c hb_rng.1 hb_rng.2 hcur_rng.1 hcur_rng.2 hc_rng.1 hc_rng.2
        hb_cur hcur_c hb_c hbz hz
    have hcn : cardNumber s.currentCard = cur := by rw [hcur]; rfl
    rw [hcn] at hcase
    unfold RunInv seenCards
    rw [hh, hdk, hcc]
    have hfm : (s.history ++ [r]).filterMap (fun r => r.baseCard) =
        s.history.filterMap (fun r => r.baseCard) ++ [cur] := by
      simp [List.filterMap_append, hrb]
    have hgl : (s.history ++ [r]).getLast? = some r := by simp
    refine ⟨⟨c, rfl⟩, ?_, ?_, ?_, ?_, ?_, ?_, ?_, ?_, ?_, ?_, ?_, ?_⟩
    · rw [hfm]
      refine List.Perm.trans ?_ hperm2
      rw [List.perm_iff_count]
      intro a
      simp only [List.count_append, Option.toList]
      omega
    · rw [List.chain'_append]
      refine ⟨hchain, List.chain'_singleton r, fun x hx y hy => ?_⟩
      have hy : y = r := by simpa using hy.symm
      subst hy
      have := hlast x (by simpa using hx)
      rw [hrb, ← hcur, this]
    · intro r1 hr1
      rw [hgl] at hr1
      rw [← Option.some.inj hr1, hrn]
    · rcases hcase with ⟨-, -, hw, -, hp, -⟩ | ⟨-, -, ⟨-, -, hw, hp, -⟩ | ⟨-, -, hw, hp, -⟩⟩ <;>
        rw [hp, List.countP_append, ← hps] <;> simp [hw]
    · rcases hcase with ⟨-, -, hw, -, -, hp⟩ | ⟨-, -, ⟨-, -, hw, -, hp⟩ | ⟨-, -, hw, -, hp⟩⟩ <;>
        rw [hp, List.countP_append, ← hds] <;> simp [hw]
    · rcases hcase with ⟨-, ho, -, hp, -, -⟩ | ⟨-, hp, ⟨-, ho, -⟩ | ⟨-, ho, -⟩⟩ <;>
        rw [hp, List.countP_append, ← hrc] <;> simp [ho]
    · intro r1 hr1 ho
      rw [hgl] at hr1
      have hr1 : r = r1 := Option.some.inj hr1
      subst hr1
      rcases hcase with ⟨hz, -⟩ | ⟨-, -, ⟨-, ho2, -⟩ | ⟨-, ho2, -⟩⟩
      · exact ⟨cur, hrb, by rw [hrn]; exact hz⟩
      · rw [ho2] at ho; exact absurd ho (by decide)
      · rw [ho2] at ho; exact absurd ho (by decide)
    · rw [List.chain'_append]
      refine ⟨hnodd, List.chain'_singleton r, fun x hx y hy => ?_⟩
      have hy : y = r := by simpa using hy.symm
      subst hy
      rintro ⟨hx1, hy1⟩
      rcases hcase with ⟨hz, -⟩ | ⟨-, -, ⟨-, ho2, -⟩ | ⟨-, ho2, -⟩⟩
      · exact hprev hz x (by simpa using hx) hx1
      · rw [ho2] at hy1; exact absurd hy1 (by decide)
      · rw [ho2] at hy1; exact absurd hy1 (by decide)
    · rcases hcase with ⟨hz, -, -, hp, -, -⟩ | ⟨-, hp, -⟩
      · rw [hp]
        simp only [List.length_append, List.length_singleton]
        rcases List.eq_nil_or_concat s.history with he | ⟨l, r0, he⟩
        · rw [he]; simp
        · have hg : s.history.getLast? = some r0 := by rw [he]; simp
          have := hlen2 r0 hg (hprev hz r0 hg)
          omega
      · rw [hp]
        simp only [List.length_append, List.length_singleton]
        omega
    · intro r1 hr1 ho
      rw [hgl] at hr1
      have hr1 : r = r1 := Option.some.inj hr1
      subst hr1
      rcases hcase with ⟨-, ho2, -⟩ | ⟨-, hp, -⟩
      · exact absurd ho2 ho
      · rw [hp]
        simp only [List.length_append, List.length_singleton]
        omega
    · have : s.deck.length = init.length + 1 := by rw [hd]; simp
      simp only [List.length_append, List.length_singleton]
      omega
    · rcases hcase with ⟨-, -, -, h1, h2, h3⟩ | ⟨-, h1, ⟨-, -, -, h2, h3⟩ | ⟨-, -, -, h2, h3⟩⟩ <;>
        omega

theorem RunInv_playGuesses (rand : Nat → Nat) (s0 : State) (guesses : List String) :
    RunInv (playGuesses guesses (startGame rand s0)) := by
  induction guesses using List.reverseRecOn with
  | nil => exact RunInv_startGame rand s0
  | append_singleton gs g ih =>
    rw [playGuesses_snoc]
    exact RunInv_handleGuess g _ ih

theorem playGuesses_history_length (rand : Nat → Nat) (s0 : State) (guesses : List String) :
    (playGuesses guesses (startGame rand s0)).history.length = min guesses.length 51 := by
  induction guesses using List.reverseRecOn with
  | nil => simp [playGuesses, startGame_eq, displayCurrentCard]
  | append_singleton gs g ih =>
    rw [playGuesses_snoc]
    have hinv := RunInv_playGuesses rand s0 gs
    have hsum := hinv.2.2.2.2.2.2.2.2.2.2.2.1
    rcases deck_cases (playGuesses gs (startGame rand s0)).deck with hd | ⟨init, c, hd⟩
    · rw [handleGuess_empty g _ hd]
      rw [hd] at hsum
      simp only [List.length_nil, List.length_append, List.length_singleton] at hsum ⊢
      simp only [setMessage]
      omega
    · obtain ⟨r, hh, -⟩ := handleGuess_drawn g _ init c hd
      rw [hh]
      rw [hd] at hsum
      simp only [List.length_append, List.length_singleton] at hsum ⊢
      omega

theorem handleGuess_message_of_cards (guess : String) (s : State) (hd : s.deck ≠ []) :
    (handleGuess guess s).dom.message ≠ "No more cards in deck!" := by
  rcases deck_cases s.deck with h | ⟨init, c, h⟩
  · exact absurd h hd
  · by_cases hcomp : compareCards (cardNumber s.currentCard) c = 0
    · rw [handleGuess_draw_eq guess s init c h hcomp]
      simp only [displayCurrentCard]
      decide
    · rw [handleGuess_counted_eq guess s init c h hcomp]
      split_ifs
      · intro hm
        have := endGame_message_mem (countedState guess s init c)
        rw [hm] at this
        revert this
        decide
      · simp only [countedState, displayCurrentCard]
        split_ifs <;> decide

theorem handleGuess_ended_message (guess : String) (s : State)
    (hE : Ended (handleGuess guess s)) :
    (handleGuess guess s).dom.message =
      if (handleGuess guess s).playerScore > (handleGuess guess s).dealerScore then
        "Game Over. You win!"
      else if (handleGuess guess s).dealerScore > (handleGuess guess s).playerScore then
        "Game Over. Dealer wins!"
      else "Game Over. It’s a tie!" := by
  rcases handleGuess_step guess s with h | h
  · exact absurd hE h.1
  · obtain ⟨init, c, hd, hc⟩ := h.2.2.2
    rw [handleGuess_counted_eq guess s init c hd hc, if_pos (by omega)]
    simp [endGame, setMessage]

theorem playGuesses_not_ended_lt (rand : Nat → Nat) (s0 : State) (guesses : List String)
    (h : ∀ k, k < guesses.length →
      ¬ Ended (playGuesses (guesses.take (k + 1)) (startGame rand s0))) :
    (playGuesses guesses (startGame rand s0)).roundsCompleted < 5 := by
  induction guesses using List.reverseRecOn with
  | nil => simp [playGuesses, startGame_eq, displayCurrentCard]
  | append_singleton gs g ih =>
    have h1 : (playGuesses gs (startGame rand s0)).roundsCompleted < 5 := by
      apply ih
      intro k hk
      have := h k (by simp; omega)
      rwa [List.take_append_of_le_length (by omega)] at this
    have h2 := h gs.length (by simp)
    rw [List.take_of_length_le (by simp), playGuesses_snoc] at h2
    rw [playGuesses_snoc]
    rcases handleGuess_step g (playGuesses gs (startGame rand s0)) with hs | hs
    · omega
    · exact absurd hs.1 h2

/-! ## Claims on runs of guesses -/

/-- C16: draw without replacement.  In every state reached from `startGame` by a sequence of
`handleGuess` calls, the deck, the current card and the base cards of the history records
together hold each id of 1..52 exactly once; the base card of every record is the new card of
the record before it, and the new card of the last record is the current card; the deck has
51 minus the number of records cards, one record for each guess until the deck is used up;
every guess with cards left shortens the deck by exactly one; after `startGame` and 51
guesses the deck is empty and the next guess draws nothing. -/
theorem draw_without_replacement (rand : Nat → Nat) (s0 : State) (guesses : List String)
    (hrand : ValidRand rand) :
    (seenCards (playGuesses guesses (startGame rand s0))).Perm (List.range' 1 52) ∧
    (∀ id, 1 ≤ id → id ≤ 52 →
      (seenCards (playGuesses guesses (startGame rand s0))).count id = 1) ∧
    List.Chain' (fun r r2 : RoundRecord => r2.baseCard = some r.newCard)
      (playGuesses guesses (startGame rand s0)).history ∧
    (∀ r, (playGuesses guesses (startGame rand s0)).history.getLast? = some r →
      (playGuesses guesses (startGame rand s0)).currentCard = some r.newCard) ∧
    (playGuesses guesses (startGame rand s0)).deck.length =
      51 - (playGuesses guesses (startGame rand s0)).history.length ∧
    (playGuesses guesses (startGame rand s0)).history.length = min guesses.length 51 ∧
    (∀ g, (playGuesses guesses (startGame rand s0)).deck ≠ [] →
      (handleGuess g (playGuesses guesses (startGame rand s0))).deck.length + 1 =
        (playGuesses guesses (startGame rand s0)).deck.length) ∧
    (guesses.length = 51 →
      (playGuesses guesses (startGame rand s0)).deck = [] ∧
      ∀ g, sameSession (playGuesses guesses (startGame rand s0))
        (handleGuess g (playGuesses guesses (startGame rand s0)))) := by
  have hinv := RunInv_playGuesses rand s0 guesses
  obtain ⟨-, hperm, hchain, hlast, -, -, -, -, -, -, -, hsum, -⟩ := hinv
  have hlen := playGuesses_history_length rand s0 guesses
  refine ⟨hperm, fun id h1 h2 => ?_, hchain, hlast, by omega, hlen, fun g hne => ?_,
    fun h51 => ?_⟩
  · rw [hperm.count_eq]
    exact List.count_eq_one_of_mem (List.nodup_range' 1 52) (mem_range_ids.mpr ⟨h1, h2⟩)
  · rcases deck_cases (playGuesses guesses (startGame rand s0)).deck with hd | ⟨init, c, hd⟩
    · exact absurd hd hne
    · obtain ⟨r, -, -, -, -, hdk, -⟩ := handleGuess_drawn g _ init c hd
      rw [hdk, hd]
      simp
  · have hd : (playGuesses guesses (startGame rand s0)).deck = [] := by
      apply List.eq_nil_of_length_eq_zero
      omega
    exact ⟨hd, fun g => (handleGuess_sameSession_iff g _).mpr hd⟩

/-- Instance of C16: the unshuffled deck and 51 guesses "higher" use the deck up, and the
guess after them changes no session variable. -/
theorem draw_without_replacement_witness :
    ValidRand (fun i => i) ∧
    (playGuesses (List.replicate 51 "higher") (startGame (fun i => i) State.initial)).deck
      = [] ∧
    sameSession (playGuesses (List.replicate 51 "higher") (startGame (fun i => i) State.initial))
      (handleGuess "lower"
        (playGuesses (List.replicate 51 "higher") (startGame (fun i => i) State.initial))) :=
  have hv : ValidRand (fun i => i) := fun i _ _ => le_refl i
  have h := (draw_without_replacement (fun i => i) State.initial (List.replicate 51 "higher")
    hv).2.2.2.2.2.2.2 (List.length_replicate 51 "higher")
  ⟨hv, h.1, h.2 "lower"⟩

/-- C17: in a run of `handleGuess` calls from a fresh `startGame`, at the first call that ends
the game `roundsCompleted` is exactly 5 and `playerScore + dealerScore = 5`; so the two scores
differ and the verdict is the player's or the dealer's win, never a tie. -/
theorem first_end_is_decided (rand : Nat → Nat) (s0 : State) (guesses : List String)
    (g : String) (hrand : ValidRand rand)
    (hfirst : ∀ k, k < guesses.length →
      ¬ Ended (playGuesses (guesses.take (k + 1)) (startGame rand s0)))
    (hend : Ended (handleGuess g (playGuesses guesses (startGame rand s0)))) :
    (handleGuess g (playGuesses guesses (startGame rand s0))).roundsCompleted = 5 ∧
    (handleGuess g (playGuesses guesses (startGame rand s0))).playerScore +
      (handleGuess g (playGuesses guesses (startGame rand s0))).dealerScore = 5 ∧
    (handleGuess g (playGuesses guesses (startGame rand s0))).playerScore ≠
      (handleGuess g (playGuesses guesses (startGame rand s0))).dealerScore ∧
    ((handleGuess g (playGuesses guesses (startGame rand s0))).dom.message
        = "Game Over. You win!" ∨
      (handleGuess g (playGuesses guesses (startGame rand s0))).dom.message
        = "Game Over. Dealer wins!") ∧
    (handleGuess g (playGuesses guesses (startGame rand s0))).dom.message
      ≠ "Game Over. It’s a tie!" := by
  have hlt := playGuesses_not_ended_lt rand s0 guesses hfirst
  have hmsg := handleGuess_ended_message g _ hend
  have hinv := RunInv_playGuesses rand s0 (guesses ++ [g])
  rw [playGuesses_snoc] at hinv
  have hscore := hinv.2.2.2.2.2.2.2.2.2.2.2.2
  have hrc : (handleGuess g (playGuesses guesses (startGame rand s0))).roundsCompleted = 5 := by
    rcases handleGuess_step g (playGuesses guesses (startGame rand s0)) with hs | hs
    · exact absurd hend hs.1
    · omega
  refine ⟨hrc, by omega, by omega, ?_, ?_⟩
  · rw [hmsg]
    split_ifs with h1 h2
    · exact Or.inl rfl
    · exact Or.inr rfl
    · omega
  · rw [hmsg]
    split_ifs with h1 h2
    · decide
    · decide
    · omega

/-- Instance of C17: with the unshuffled deck and the guess "lower" each time, the fifth call
is the first to end the game, with five rounds counted. -/
theorem first_end_is_decided_witness :
    (handleGuess "lower" (playGuesses ["lower", "lower", "lower", "lower"]
      (startGame (fun i => i) State.initial))).roundsCompleted = 5 ∧
    (handleGuess "lower" (playGuesses ["lower", "lower", "lower", "lower"]
      (startGame (fun i => i) State.initial))).dom.message ≠ "Game Over. It’s a tie!" :=
  have h := first_end_is_decided (fun i => i) State.initial ["lower", "lower", "lower", "lower"]
    "lower" (fun i _ _ => le_refl i) (by set_option maxRecDepth 100000 in decide)
    (by set_option maxRecDepth 100000 in decide)
  ⟨h.1, h.2.2.2.2⟩

/-- C18: the scores are consistent with the history.  In every state reached from `startGame`
by a sequence of `handleGuess` calls, `playerScore` is the number of history records won by
the player, `dealerScore` the number won by the dealer, `roundsCompleted` the number of
records that are not draws, and `playerScore + dealerScore = roundsCompleted`. -/
theorem scores_match_history (rand : Nat → Nat) (s0 : State) (guesses : List String)
    (hrand : ValidRand rand) :
    (playGuesses guesses (startGame rand s0)).playerScore =
      (playGuesses guesses (startGame rand s0)).history.countP
        (fun r => r.winningSide = some "player") ∧
    (playGuesses guesses (startGame rand s0)).dealerScore =
      (playGuesses guesses (startGame rand s0)).history.countP
        (fun r => r.winningSide = some "dealer") ∧
    (playGuesses guesses (startGame rand s0)).roundsCompleted =
      (playGuesses guesses (startGame rand s0)).history.countP
        (fun r => r.outcome ≠ "draw") ∧
    (playGuesses guesses (startGame rand s0)).playerScore +
      (playGuesses guesses (startGame rand s0)).dealerScore =
      (playGuesses guesses (startGame rand s0)).roundsCompleted := by
  have hinv := RunInv_playGuesses rand s0 guesses
  exact ⟨hinv.2.2.2.2.1, hinv.2.2.2.2.2.1, hinv.2.2.2.2.2.2.1, hinv.2.2.2.2.2.2.2.2.2.2.2.2⟩

/-- Instance of C18: with the swap indices `drawRand` (a draw first) and three guesses, the
history holds three records, two rounds are counted and the two scores add up to 2. -/
theorem scores_match_history_witness :
    (playGuesses ["higher", "lower", "lower"] (startGame drawRand State.initial)).playerScore
      + (playGuesses ["higher", "lower", "lower"]
          (startGame drawRand State.initial)).dealerScore
      = (playGuesses ["higher", "lower", "lower"]
          (startGame drawRand State.initial)).roundsCompleted ∧
    (playGuesses ["higher", "lower", "lower"]
      (startGame drawRand State.initial)).history.length = 3 ∧
    (playGuesses ["higher", "lower", "lower"]
      (startGame drawRand State.initial)).roundsCompleted = 2 :=
  ⟨(scores_match_history drawRand State.initial ["higher", "lower", "lower"]
      drawRand_valid).2.2.2,
    by set_option maxRecDepth 100000 in decide, by set_option maxRecDepth 100000 in decide⟩

/-- C20: the deck never runs out while a game is in progress.  In a run of `handleGuess` calls
from a fresh `startGame` no two consecutive records of the history are both draws; so after
ten calls at least five rounds are counted, and while `roundsCompleted < 5` the deck is not
empty and a guess does not report "No more cards". -/
theorem deck_outlasts_game (rand : Nat → Nat) (s0 : State) (guesses : List String)
    (hrand : ValidRand rand) :
    List.Chain' (fun r r2 : RoundRecord => ¬ (r.outcome = "draw" ∧ r2.outcome = "draw"))
      (playGuesses guesses (startGame rand s0)).history ∧
    (playGuesses guesses (startGame rand s0)).history.length ≤
      2 * (playGuesses guesses (startGame rand s0)).roundsCompleted + 1 ∧
    (10 ≤ guesses.length → 5 ≤ (playGuesses guesses (startGame rand s0)).roundsCompleted) ∧
    ((playGuesses guesses (startGame rand s0)).roundsCompleted < 5 →
      guesses.length ≤ 9 ∧
      42 ≤ (playGuesses guesses (startGame rand s0)).deck.length ∧
      (playGuesses guesses (startGame rand s0)).deck ≠ [] ∧
      ∀ g, (handleGuess g (playGuesses guesses (startGame rand s0))).dom.message ≠
        "No more cards in deck!") := by
  have hinv := RunInv_playGuesses rand s0 guesses
  obtain ⟨-, -, -, -, -, -, -, -, hnodd, hlen1, -, hsum, -⟩ := hinv
  have hlen := playGuesses_history_length rand s0 guesses
  refine ⟨hnodd, hlen1, fun h10 => by omega, fun hlt => ?_⟩
  have hdl : 42 ≤ (playGuesses guesses (startGame rand s0)).deck.length := by omega
  have hne : (playGuesses guesses (startGame rand s0)).deck ≠ [] := by
    intro he
    rw [he] at hdl
    simp at hdl
  exact ⟨by omega, hdl, hne, fun g => handleGuess_message_of_cards g _ hne⟩

/-- Instance of C20: with the swap indices `drawRand` the first round is a draw, the second
is counted, and ten guesses bring `roundsCompleted` to at least 5. -/
theorem deck_outlasts_game_witness :
    ValidRand drawRand ∧
    5 ≤ (playGuesses (List.replicate 10 "lower") (startGame drawRand State.initial)).roundsCompleted ∧
    (playGuesses ["lower"] (startGame drawRand State.initial)).deck ≠ [] :=
  ⟨drawRand_valid,
    (deck_outlasts_game drawRand State.initial (List.replicate 10 "lower") drawRand_valid).2.2.1
      (by simp),
    ((deck_outlasts_game drawRand State.initial ["lower"] drawRand_valid).2.2.2
      (by set_option maxRecDepth 100000 in decide)).2.2.1⟩

/-! ## Deck: every permutation comes from exactly one supply of swap indices -/

theorem nodup_getElem?_inj (l : List Nat) (hnd : l.Nodup) (i j x : Nat)
    (hi : l[i]? = some x) (hj : l[j]? = some x) : i = j := by
  obtain ⟨hi', e1⟩ := List.getElem?_eq_some_iff.mp hi
  obtain ⟨hj', e2⟩ := List.getElem?_eq_some_iff.mp hj
  exact (hnd.getElem_inj_iff).mp (e1.trans e2.symm)

theorem swap_length (deck : List Nat) (i j : Nat) : (swap deck i j).length = deck.length :=
  (swap_perm deck i j).length_eq

theorem swap_getElem? (deck : List Nat) (i j k : Nat) (hi : i < deck.length)
    (hj : j < deck.length) :
    (swap deck i j)[k]? = if k = j then deck[i]? else if k = i then deck[j]? else deck[k]? := by
  unfold swap
  rw [List.getElem?_eq_getElem hi, List.getElem?_eq_getElem hj]
  simp only [List.getElem?_set, List.length_set]
  by_cases h1 : k = j
  · subst h1
    simp [hj]
  · by_cases h2 : k = i
    · subst h2
      simp [h1, hi, Ne.symm h1]
    · simp [h1, h2, Ne.symm h1, Ne.symm h2]

theorem shuffleLoop_length (rand : Nat → Nat) (i : Nat) (deck : List Nat) :
    (shuffleLoop rand i deck).length = deck.length :=
  (shuffleLoop_perm rand i deck).length_eq

theorem shuffleLoop_congr (r1 r2 : Nat → Nat) (i : Nat) (deck : List Nat)
    (h : ∀ m, 1 ≤ m → m ≤ i → r1 m = r2 m) :
    shuffleLoop r1 i deck = shuffleLoop r2 i deck := by
  induction i generalizing deck with
  | zero => rfl
  | succ i ih =>
    simp only [shuffleLoop]
    rw [h (i + 1) (by omega) (le_refl _)]
    exact ih _ (fun m h1 h2 => h m h1 (by omega))

/-- The loop started at `i` leaves the positions above `i` as they are. -/
theorem shuffleLoop_getElem?_above (rand : Nat → Nat) (i : Nat) (deck : List Nat) (k : Nat)
    (hv : ∀ m, 1 ≤ m → m ≤ i → rand m ≤ m) (hi : i < deck.length) (hk : i < k) :
    (shuffleLoop rand i deck)[k]? = deck[k]? := by
  induction i generalizing deck with
  | zero => rfl
  | succ i ih =>
    simp only [shuffleLoop]
    have hj := hv (i + 1) (by omega) (le_refl _)
    rw [ih _ (fun m h1 h2 => hv m h1 (by omega)) (by rw [swap_length]; omega) (by omega),
      swap_getElem? deck (i + 1) (rand (i + 1)) k hi (by omega),
      if_neg (by omega), if_neg (by omega)]

/-- The iteration for `i + 1` decides what ends at position `i + 1`. -/
theorem shuffleLoop_getElem?_top (rand : Nat → Nat) (i : Nat) (deck : List Nat)
    (hv : ∀ m, 1 ≤ m → m ≤ i + 1 → rand m ≤ m) (hi : i + 1 < deck.length) :
    (shuffleLoop rand (i + 1) deck)[i + 1]? = deck[rand (i + 1)]? := by
  simp only [shuffleLoop]
  have hj := hv (i + 1) (by omega) (le_refl _)
  rw [shuffleLoop_getElem?_above rand i _ (i + 1) (fun m h1 h2 => hv m h1 (by omega))
      (by rw [swap_length]; omega) (by omega),
    swap_getElem? deck (i + 1) (rand (i + 1)) (i + 1) hi (by omega)]
  by_cases e : i + 1 = rand (i + 1)
  · rw [if_pos e, ← e]
  · rw [if_neg e, if_pos rfl]

theorem shuffleLoop_injective (r1 r2 : Nat → Nat) (i : Nat) (deck : List Nat)
    (hnd : deck.Nodup) (hi : i < deck.length)
    (hv1 : ∀ m, 1 ≤ m → m ≤ i → r1 m ≤ m) (hv2 : ∀ m, 1 ≤ m → m ≤ i → r2 m ≤ m)
    (heq : shuffleLoop r1 i deck = shuffleLoop r2 i deck) :
    ∀ m, 1 ≤ m → m ≤ i → r1 m = r2 m := by
  induction i generalizing deck with
  | zero => intro m h1 h2; omega
  | succ i ih =>
    have htop : deck[r1 (i + 1)]? = deck[r2 (i + 1)]? := by
      rw [← shuffleLoop_getElem?_top r1 i deck hv1 hi, ← shuffleLoop_getElem?_top r2 i deck hv2 hi,
        heq]
    have h1 := hv1 (i + 1) (by omega) (le_refl _)
    have h2 := hv2 (i + 1) (by omega) (le_refl _)
    have hj : r1 (i + 1) = r2 (i + 1) := by
      have hlt : r1 (i + 1) < deck.length := by omega
      rw [List.getElem?_eq_getElem hlt] at htop
      exact nodup_getElem?_inj deck hnd _ _ _ (List.getElem?_eq_getElem hlt) htop.symm
    simp only [shuffleLoop] at heq
    rw [← hj] at heq
    have hrec := ih (swap deck (i + 1) (r1 (i + 1)))
      ((swap_perm deck _ _).nodup_iff.mpr hnd) (by rw [swap_length]; omega)
      (fun m a b => hv1 m a (by omega)) (fun m a b => hv2 m a (by omega)) heq
    intro m hm1 hm2
    by_cases e : m = i + 1
    · rw [e]; exact hj
    · exact hrec m hm1 (by omega)

theorem eq_of_perm_of_agree_above_zero (target deck : List Nat) (hperm : target.Perm deck)
    (habove : ∀ k, 0 < k → target[k]? = deck[k]?) : target = deck := by
  cases target with
  | nil => exact (List.nil_perm.mp hperm).symm
  | cons t tl =>
    cases deck with
    | nil => exact absurd (List.perm_nil.mp hperm) (by simp)
    | cons d dl =>
      have htl : tl = dl := by
        apply List.ext_getElem?
        intro n
        have := habove (n + 1) (by omega)
        simpa using this
      subst htl
      have h1 : ([t] ++ tl).Perm ([d] ++ tl) := hperm
      have h2 := (List.perm_append_right_iff tl).mp h1
      have h3 : t = d := by
        have := h2.mem_iff (a := t)
        simpa using this
      rw [h3]

theorem shuffleLoop_surjective (i : Nat) (deck target : List Nat)
    (hnd : deck.Nodup) (hi : i < deck.length) (hperm : target.Perm deck)
    (habove : ∀ k, i < k → target[k]? = deck[k]?) :
    ∃ rand, (∀ m, 1 ≤ m → m ≤ i → rand m ≤ m) ∧ shuffleLoop rand i deck = target := by
  induction i generalizing deck with
  | zero =>
    exact ⟨fun m => m, fun m _ _ => le_refl m,
      (eq_of_perm_of_agree_above_zero target deck hperm habove).symm⟩
  | succ i ih =>
    have hlen := hperm.length_eq
    have htn : target.Nodup := hperm.nodup_iff.mpr hnd
    obtain ⟨x, hx⟩ : ∃ x, target[i + 1]? = some x :=
      ⟨_, List.getElem?_eq_getElem (by omega)⟩
    have hmem : x ∈ deck := hperm.mem_iff.mp (List.mem_iff_getElem?.mpr ⟨_, hx⟩)
    obtain ⟨j, hdj⟩ := List.mem_iff_getElem?.mp hmem
    have hj : j < deck.length := (List.getElem?_eq_some_iff.mp hdj).1
    have hjle : j ≤ i + 1 := by
      by_contra hgt
      have h1 := habove j (by omega)
      rw [hdj] at h1
      have := nodup_getElem?_inj target htn _ _ _ h1 hx
      omega
    obtain ⟨rand, hv, hr⟩ := ih (swap deck (i + 1) j)
      ((swap_perm deck _ _).nodup_iff.mpr hnd) (by rw [swap_length]; omega)
      (hperm.trans (swap_perm deck _ _).symm)
      (fun k hk => by
        rw [swap_getElem? deck (i + 1) j k hi hj]
        by_cases e1 : k = j
        · have e3 : j = i + 1 := by omega
          rw [if_pos e1, e1, e3, hx, ← e3, hdj]
        · rw [if_neg e1]
          by_cases e2 : k = i + 1
          · rw [if_pos e2, e2, hx, hdj]
          · rw [if_neg e2]
            exact habove k (by omega))
    refine ⟨fun m => if m = i + 1 then j else rand m, fun m h1 h2 => ?_, ?_⟩
    · by_cases e : m = i + 1
      · simp only [if_pos e]; omega
      · simp only [if_neg e]; exact hv m h1 (by omega)
    · simp only [shuffleLoop, if_pos]
      rw [shuffleLoop_congr _ rand i _ (fun m h1 h2 => by
        have : m ≠ i + 1 := by omega
        simp only [if_neg this])]
      exact hr

theorem initializeDeck_deck (rand : Nat → Nat) (s : State) :
    (initializeDeck rand s).deck = shuffleLoop rand 51 (List.range' 1 52) := by
  simp [initializeDeck, fillDeck_eq]

/-- C15: every permutation of the 52 ids is reached by `initializeDeck`, and by exactly one
supply of swap indices: for every permutation `p` of 1..52 there are swap indices `j` with
`0 ≤ j ≤ i` for the iterations `i = 51` down to `1` after which the deck is `p`, and any other
such supply that also yields `p` has the same index in each of the 51 iterations.  (Every
supply yields a permutation, so the map from supplies to decks is a bijection onto the
permutations.) -/
theorem shuffle_reaches_each_once (s : State) (p : List Nat)
    (hp : p.Perm (List.range' 1 52)) :
    (∃ rand, ValidRand rand ∧ (initializeDeck rand s).deck = p ∧
      ∀ rand2, ValidRand rand2 → (initializeDeck rand2 s).deck = p →
        ∀ i, 1 ≤ i → i ≤ 51 → rand2 i = rand i) ∧
    (∀ rand, ValidRand rand → (initializeDeck rand s).deck.Perm (List.range' 1 52)) := by
  refine ⟨?_, fun rand _ => shuffled_perm rand s⟩
  obtain ⟨rand, hv, hr⟩ := shuffleLoop_surjective 51 (List.range' 1 52) p
    (List.nodup_range' 1 52) (by simp) hp (fun k hk => by
      rw [List.getElem?_eq_none (by rw [hp.length_eq]; simp; omega),
        List.getElem?_eq_none (by simp; omega)])
  refine ⟨rand, hv, by rw [initializeDeck_deck, hr], fun rand2 hv2 h2 => ?_⟩
  rw [initializeDeck_deck, ← hr] at h2
  exact shuffleLoop_injective rand2 rand 51 (List.range' 1 52) (List.nodup_range' 1 52)
    (by simp) hv2 hv h2

/-- Instance of C15 for the permutation that exchanges the first and the last card of the
sorted deck: it is reached, by one supply of swap indices only. -/
theorem shuffle_reaches_each_once_witness :
    ∃ rand, ValidRand rand ∧
      (initializeDeck rand State.initial).deck = 52 :: (List.range' 2 50 ++ [1]) ∧
      ∀ rand2, ValidRand rand2 →
        (initializeDeck rand2 State.initial).deck = 52 :: (List.range' 2 50 ++ [1]) →
        ∀ i, 1 ≤ i → i ≤ 51 → rand2 i = rand i :=
  (shuffle_reaches_each_once State.initial (52 :: (List.range' 2 50 ++ [1]))
    (by decide)).1

end HigherLower
